import Mathlib

/-!
Shallow embedding of the `barakmich/chess` Go library (move generator,
notation codec, game state, PGN scanner) together with proofs checking the
natural-language specification against it.

Conventions of the embedding:
* Go `uint64` bitboards are `Nat` kept below `2^64`; wrap-around subtraction
  is `sub64` (explicit `% 2^64`), complement is XOR with the all-ones word.
* `Color`, `PieceType`, `Piece`, `PromoType`, `Square` are `Nat` with the
  source's constant values (`Piece` packs color in the upper nibble).
* The source stores a `Move` either as a struct or packed into a `uint64`
  (bytes: s1, s2, piece, promo, then 16 tag bits).  All field widths hold
  their values exactly (squares < 64, piece <= 255, promo < 8, tags 16 bits),
  so we model the move as a structure with one field per packed field and the
  tag bitset as a structure of `Bool`s; `addTag`/`HasTag` (always used with a
  single tag bit) become field updates/reads.
* Go `nil` slices become `Option`/empty lists; functions returning
  `(T, error)` become `Except String T`; methods that mutate the receiver
  return the new value.
-/

set_option maxRecDepth 200000

namespace Chess

/-! ## 64-bit word helpers -/

def word64 : Nat := 18446744073709551616

def mask64 : Nat := 18446744073709551615

/-- Complement of a 64-bit word (`^x` in Go on uint64). -/
def compl64 (x : Nat) : Nat := mask64 ^^^ x

/-- Wrap-around subtraction on 64-bit words (`a - b` in Go on uint64). -/
def sub64 (a b : Nat) : Nat := (a + (word64 - b % word64)) % word64

/-- `bits.Reverse64`: the bit at index `i` moves to index `63 - i`. -/
def reverse64 (x : Nat) : Nat :=
  (List.range 64).foldl (fun acc i => acc ||| (if x.testBit i then 1 <<< (63 - i) else 0)) 0

/-! ## String helpers

Go's string functions, implemented over the underlying character list so
that every definition evaluates by plain kernel reduction (several core
`String` functions use well-founded recursion, which does not reduce). -/

/-- `strings.TrimSpace`. -/
def strTrim (s : String) : String :=
  String.mk (((s.toList.dropWhile Char.isWhitespace).reverse.dropWhile Char.isWhitespace).reverse)

/-- `strings.HasPrefix`. -/
def strStartsWith (s pre : String) : Bool := pre.toList.isPrefixOf s.toList

/-- `strings.Contains` with a one-character needle. -/
def strContainsChar (s : String) (c : Char) : Bool := s.toList.contains c

/-- Go's byte slicing `s[n:]` (ASCII inputs). -/
def strDrop (s : String) (n : Nat) : String := String.mk (s.toList.drop n)

/-- `strings.ToLower` (ASCII). -/
def strToLower (s : String) : String := String.mk (s.toList.map Char.toLower)

def splitCharList (c : Char) : List Char → List (List Char)
  | [] => [[]]
  | ch :: rest =>
    match splitCharList c rest with
    | [] => [[]]
    | hd :: tl => if ch = c then [] :: hd :: tl else (ch :: hd) :: tl

/-- `strings.Split` with a one-character separator. -/
def strSplitOnChar (c : Char) (s : String) : List String :=
  (splitCharList c s.toList).map String.mk

/-- Does `cs` contain `pat` as a contiguous sublist? -/
def containsSubList (cs pat : List Char) : Bool :=
  (List.range (cs.length + 1)).any (fun i => pat.isPrefixOf (cs.drop i))

/-- `strings.Contains` with a multi-character needle. -/
def containsSub (s pat : String) : Bool := containsSubList s.toList pat.toList

def replaceAllAux : Nat → List Char → List Char → List Char → List Char
  | 0, cs, _, _ => cs
  | _, [], _, _ => []
  | fuel + 1, ch :: rest, pat, rep =>
    if pat ≠ [] ∧ pat.isPrefixOf (ch :: rest) then
      rep ++ replaceAllAux fuel ((ch :: rest).drop pat.length) pat rep
    else ch :: replaceAllAux fuel rest pat rep

/-- `strings.ReplaceAll` (a non-empty pattern replaced everywhere,
left to right). -/
def strReplaceAll (s pat rep : String) : String :=
  String.mk (replaceAllAux s.toList.length s.toList pat.toList rep.toList)

/-- `strconv.Atoi` on a non-negative decimal. -/
def strToNatOpt (s : String) : Option Nat :=
  let cs := s.toList
  if cs ≠ [] ∧ cs.all Char.isDigit then
    some (cs.foldl (fun a c => a * 10 + (c.toNat - '0'.toNat)) 0)
  else none

/-- `strings.Join`. -/
def strJoin (sep : String) : List String → String
  | [] => ""
  | hd :: tl => tl.foldl (fun acc x => acc ++ sep ++ x) hd

/-! ## Colors, piece types, pieces, squares -/

abbrev Color := Nat

def White : Color := 0
def Black : Color := 1
def NoColor : Color := 15

/-- `Color.Other`: swaps White and Black (anything not White maps to White). -/
def Color.Other (c : Color) : Color := if c = White then Black else White

abbrev PieceType := Nat

def King : PieceType := 0
def Queen : PieceType := 1
def Rook : PieceType := 2
def Bishop : PieceType := 3
def Knight : PieceType := 4
def Pawn : PieceType := 5
def NoPieceType : PieceType := 15

abbrev PromoType := Nat

def NoPromo : PromoType := 0
def PromoQueen : PromoType := 1
def PromoRook : PromoType := 2
def PromoBishop : PromoType := 3
def PromoKnight : PromoType := 4

/-- `PromoType.PieceType`: a promotion choice as a piece type. -/
def PromoType.PieceType (promo : PromoType) : Chess.PieceType :=
  if promo = NoPromo then NoPieceType else promo

def promoFromPieceType (p : PieceType) : PromoType :=
  if p = Queen then PromoQueen
  else if p = Rook then PromoRook
  else if p = Knight then PromoKnight
  else if p = Bishop then PromoBishop
  else NoPromo

abbrev Piece := Nat

def WhiteKing : Piece := 0
def WhiteQueen : Piece := 1
def WhiteRook : Piece := 2
def WhiteBishop : Piece := 3
def WhiteKnight : Piece := 4
def WhitePawn : Piece := 5
def BlackKing : Piece := 16
def BlackQueen : Piece := 17
def BlackRook : Piece := 18
def BlackBishop : Piece := 19
def BlackKnight : Piece := 20
def BlackPawn : Piece := 21
def NoPiece : Piece := 255

def allPieces : List Piece :=
  [WhiteKing, WhiteQueen, WhiteRook, WhiteBishop, WhiteKnight, WhitePawn,
   BlackKing, BlackQueen, BlackRook, BlackBishop, BlackKnight, BlackPawn]

def allPieceTypes : List PieceType := [King, Queen, Rook, Bishop, Knight, Pawn]

def GetPiece (t : PieceType) (c : Color) : Piece := (c <<< 4) ||| t

/-- `Piece.Type`: the lower nibble. -/
def Piece.Type (p : Piece) : PieceType := p &&& 0xF

/-- `Piece.Color`: the upper nibble. -/
def Piece.Color (p : Piece) : Chess.Color := p >>> 4

/-- Modelled from the spec: `Square` (square.go is not under src/) is an
integer 0..63 with A1=0, H1=7, A8=56, H8=63; file = sq & 7, rank = sq >> 3;
`NoSquare` is a sentinel (any value outside 0..63 serves; we use 64). -/
abbrev Square := Nat

def NoSquare : Square := 64

def A1 : Square := 0
def B1 : Square := 1
def C1 : Square := 2
def D1 : Square := 3
def E1 : Square := 4
def F1 : Square := 5
def G1 : Square := 6
def H1 : Square := 7
def A8 : Square := 56
def B8 : Square := 57
def C8 : Square := 58
def D8 : Square := 59
def E8 : Square := 60
def F8 : Square := 61
def G8 : Square := 62
def H8 : Square := 63

/-- Modelled from the spec: a square's rank is `sq >> 3`. -/
def Square.Rank (sq : Square) : Nat := sq >>> 3

/-- Modelled from the spec: a square's file is `sq & 7`. -/
def Square.File (sq : Square) : Nat := sq &&& 7

/-- Modelled from the spec: `NewSquare(file, rank)` with A1 = 0 row-major. -/
def NewSquare (file rank : Nat) : Square := rank * 8 + file

def Rank1 : Nat := 0
def Rank2 : Nat := 1
def Rank3 : Nat := 2
def Rank4 : Nat := 3
def Rank5 : Nat := 4
def Rank6 : Nat := 5
def Rank7 : Nat := 6
def Rank8 : Nat := 7

/-! ## Bitboard constants (copied from engine.go / bitflip/chessdata.go; the
two packages declare identical tables) -/

def bbForSquare (sq : Square) : Nat := 1 <<< sq

def bbFileA : Nat := 72340172838076673
def bbFileB : Nat := 144680345676153346
def bbFileC : Nat := 289360691352306692
def bbFileD : Nat := 578721382704613384
def bbFileE : Nat := 1157442765409226768
def bbFileF : Nat := 2314885530818453536
def bbFileG : Nat := 4629771061636907072
def bbFileH : Nat := 9259542123273814144

def bbRank1 : Nat := 255
def bbRank2 : Nat := 65280
def bbRank3 : Nat := 16711680
def bbRank4 : Nat := 4278190080
def bbRank5 : Nat := 1095216660480
def bbRank6 : Nat := 280375465082880
def bbRank7 : Nat := 71776119061217280
def bbRank8 : Nat := 18374686479671623680

def bbFiles : List Nat :=
  [bbFileA, bbFileB, bbFileC, bbFileD, bbFileE, bbFileF, bbFileG, bbFileH]

def bbRanks : List Nat :=
  [bbRank1, bbRank2, bbRank3, bbRank4, bbRank5, bbRank6, bbRank7, bbRank8]

def bbDiagonals : List Nat :=
  [9241421688590303745, 36099303471055874, 141012904183812, 550831656968,
   2151686160, 8405024, 32832, 128, 4620710844295151872, 9241421688590303745,
   36099303471055874, 141012904183812, 550831656968, 2151686160, 8405024,
   32832, 2310355422147575808, 4620710844295151872, 9241421688590303745,
   36099303471055874, 141012904183812, 550831656968, 2151686160, 8405024,
   1155177711073755136, 2310355422147575808, 4620710844295151872,
   9241421688590303745, 36099303471055874, 141012904183812, 550831656968,
   2151686160, 577588855528488960, 1155177711073755136, 2310355422147575808,
   4620710844295151872, 9241421688590303745, 36099303471055874,
   141012904183812, 550831656968, 288794425616760832, 577588855528488960,
   1155177711073755136, 2310355422147575808, 4620710844295151872,
   9241421688590303745, 36099303471055874, 141012904183812,
   144396663052566528, 288794425616760832, 577588855528488960,
   1155177711073755136, 2310355422147575808, 4620710844295151872,
   9241421688590303745, 36099303471055874, 72057594037927936,
   144396663052566528, 288794425616760832, 577588855528488960,
   1155177711073755136, 2310355422147575808, 4620710844295151872,
   9241421688590303745]

def bbAntiDiagonals : List Nat :=
  [1, 258, 66052, 16909320, 4328785936, 1108169199648, 283691315109952,
   72624976668147840, 258, 66052, 16909320, 4328785936, 1108169199648,
   283691315109952, 72624976668147840, 145249953336295424, 66052, 16909320,
   4328785936, 1108169199648, 283691315109952, 72624976668147840,
   145249953336295424, 290499906672525312, 16909320, 4328785936,
   1108169199648, 283691315109952, 72624976668147840, 145249953336295424,
   290499906672525312, 580999813328273408, 4328785936, 1108169199648,
   283691315109952, 72624976668147840, 145249953336295424,
   290499906672525312, 580999813328273408, 1161999622361579520,
   1108169199648, 283691315109952, 72624976668147840, 145249953336295424,
   290499906672525312, 580999813328273408, 1161999622361579520,
   2323998145211531264, 283691315109952, 72624976668147840,
   145249953336295424, 290499906672525312, 580999813328273408,
   1161999622361579520, 2323998145211531264, 4647714815446351872,
   72624976668147840, 145249953336295424, 290499906672525312,
   580999813328273408, 1161999622361579520, 2323998145211531264,
   4647714815446351872, 9223372036854775808]

def bbKnightMoves : List Nat :=
  [132096, 329728, 659712, 1319424, 2638848, 5277696, 10489856, 4202496,
   33816580, 84410376, 168886289, 337772578, 675545156, 1351090312,
   2685403152, 1075839008, 8657044482, 21609056261, 43234889994, 86469779988,
   172939559976, 345879119952, 687463207072, 275414786112, 2216203387392,
   5531918402816, 11068131838464, 22136263676928, 44272527353856,
   88545054707712, 175990581010432, 70506185244672, 567348067172352,
   1416171111120896, 2833441750646784, 5666883501293568, 11333767002587136,
   22667534005174272, 45053588738670592, 18049583422636032,
   145241105196122112, 362539804446949376, 725361088165576704,
   1450722176331153408, 2901444352662306816, 5802888705324613632,
   11533718717099671552, 4620693356194824192, 288234782788157440,
   576469569871282176, 1224997833292120064, 2449995666584240128,
   4899991333168480256, 9799982666336960512, 1152939783987658752,
   2305878468463689728, 1128098930098176, 2257297371824128, 4796069720358912,
   9592139440717824, 19184278881435648, 38368557762871296, 4679521487814656,
   9077567998918656]

def bbKingMoves : List Nat :=
  [770, 1797, 3594, 7188, 14376, 28752, 57504, 49216, 197123, 460039, 920078,
   1840156, 3680312, 7360624, 14721248, 12599488, 50463488, 117769984,
   235539968, 471079936, 942159872, 1884319744, 3768639488, 3225468928,
   12918652928, 30149115904, 60298231808, 120596463616, 241192927232,
   482385854464, 964771708928, 825720045568, 3307175149568, 7718173671424,
   15436347342848, 30872694685696, 61745389371392, 123490778742784,
   246981557485568, 211384331665408, 846636838289408, 1975852459884544,
   3951704919769088, 7903409839538176, 15806819679076352, 31613639358152704,
   63227278716305408, 54114388906344448, 216739030602088448,
   505818229730443264, 1011636459460886528, 2023272918921773056,
   4046545837843546112, 8093091675687092224, 16186183351374184448,
   13853283560024178688, 144959613005987840, 362258295026614272,
   724516590053228544, 1449033180106457088, 2898066360212914176,
   5796132720425828352, 11592265440851656704, 4665729213955833856]

/-! ## Move tags and moves -/

/-- The `MoveTag` bitset of move.go, one `Bool` per tag bit
(KingSideCastle = bit 0 .. IsCheckmate = bit 6). -/
structure Tags where
  kingSideCastle : Bool := false
  queenSideCastle : Bool := false
  capture : Bool := false
  enPassant : Bool := false
  check : Bool := false
  inCheck : Bool := false
  isCheckmate : Bool := false
deriving DecidableEq, Repr

/-- A move: origin, destination, promotion choice, moving piece, tag set.
A zero `Move` (Go's `Move(0)` / zero struct) has piece 0, squares 0,
`NoPromo` and no tags. -/
structure Move where
  piece : Piece := 0
  s1 : Square := 0
  s2 : Square := 0
  promo : PromoType := NoPromo
  tags : Tags := {}
deriving DecidableEq, Repr

/-- `Move.Eq`: equality masks in only origin, destination and promotion
(`movePromoMask | moveS1Mask | moveS2Mask`), ignoring piece and tags. -/
def Move.Eq (m other : Move) : Bool :=
  m.s1 == other.s1 && m.s2 == other.s2 && m.promo == other.promo

/-! ## Board -/

/-- Per-piece bitboards (22 slots indexed directly by `Piece`, of which the
12 real pieces are used) plus the cached king squares.  The lazily memoized
`occupiedCache` is omitted: `occupied` recomputes the same union. -/
structure Board where
  array : List Nat
  whiteKingSq : Square
  blackKingSq : Square
deriving DecidableEq, Repr

def Board.bbForPiece (b : Board) (p : Piece) : Nat := b.array.getD p 0

def Board.setBBForPiece (b : Board) (p : Piece) (bb : Nat) : Board :=
  { b with array := b.array.set p bb }

def Board.occupied (b : Board) : Nat := b.array.foldl (· ||| ·) 0

def Board.isOccupied (b : Board) (sq : Square) : Bool :=
  b.occupied &&& (1 <<< sq) != 0

/-- `Board.Piece`: scan the twelve per-piece bitboards. -/
def Board.Piece (b : Board) (sq : Square) : Chess.Piece :=
  if !b.isOccupied sq then NoPiece
  else match allPieces.find? (fun p => (b.bbForPiece p).testBit sq) with
    | some p => p
    | none => NoPiece

/-- `Board.pieceAt`: scan all 22 array slots in order. -/
def Board.pieceAt (b : Board) (sq : Square) : Chess.Piece :=
  match (List.range 22).find? (fun i => (b.array.getD i 0).testBit sq) with
  | some i => i
  | none => NoPiece

def Board.whiteSqs (b : Board) : Nat :=
  (List.range 6).foldl (fun t i => t ||| b.array.getD (WhiteKing + i) 0) 0

def Board.blackSqs (b : Board) : Nat :=
  (List.range 6).foldl (fun t i => t ||| b.array.getD (BlackKing + i) 0) 0

/-- `Board.Eq`: the other board has the same 22 bitboards (king-square
caches are not compared). -/
def Board.Eq (b other : Board) : Bool := b.array == other.array

/-- `updateKings(nil)`: rescan the king bitboards for the cached squares. -/
def Board.updateKingsScan (b : Board) : Board :=
  (List.range 64).foldl
    (fun b sq =>
      if (b.array.getD WhiteKing 0).testBit sq then { b with whiteKingSq := sq }
      else if (b.array.getD BlackKing 0).testBit sq then { b with blackKingSq := sq }
      else b)
    { b with whiteKingSq := NoSquare, blackKingSq := NoSquare }

/-- `updateKings(m)` with a move: follow the king-square cache. -/
def Board.updateKingsMove (b : Board) (m : Move) : Board :=
  if m.s1 = b.whiteKingSq then { b with whiteKingSq := m.s2 }
  else if m.s1 = b.blackKingSq then { b with blackKingSq := m.s2 }
  else b

/-- `Board.update`: apply a move in place (capture clearing, mover transfer,
promotion, en-passant removal, castling rook displacement, king cache). -/
def Board.update (b : Board) (m : Move) : Board :=
  let p1 := if m.piece = NoPiece then b.Piece m.s1 else m.piece
  let s1BB := bbForSquare m.s1
  let s2BB := bbForSquare m.s2
  -- remove what was at s2 from every per-piece bitboard
  let b := allPieces.foldl
    (fun b p => b.setBBForPiece p (b.bbForPiece p &&& compl64 s2BB)) b
  -- move the s1 piece to s2
  let b := b.setBBForPiece p1 ((b.bbForPiece p1 &&& compl64 s1BB) ||| s2BB)
  -- check promotion
  let b := if m.promo ≠ NoPromo then
      let newPiece := GetPiece m.promo.PieceType p1.Color
      let b := b.setBBForPiece p1 (b.bbForPiece p1 &&& compl64 s2BB)
      b.setBBForPiece newPiece (b.bbForPiece newPiece ||| s2BB)
    else b
  -- remove captured en passant piece
  let b := if m.tags.enPassant then
      if p1.Color = White then
        b.setBBForPiece BlackPawn (compl64 (bbForSquare m.s2 >>> 8) &&& b.bbForPiece BlackPawn)
      else
        b.setBBForPiece WhitePawn (compl64 (bbForSquare m.s2 <<< 8) &&& b.bbForPiece WhitePawn)
    else b
  -- move rook for castle
  let b :=
    if p1.Color = White ∧ m.tags.kingSideCastle then
      b.setBBForPiece WhiteRook ((b.bbForPiece WhiteRook &&& compl64 (bbForSquare H1)) ||| bbForSquare F1)
    else if p1.Color = White ∧ m.tags.queenSideCastle then
      b.setBBForPiece WhiteRook ((b.bbForPiece WhiteRook &&& compl64 (bbForSquare A1)) ||| bbForSquare D1)
    else if p1.Color = Black ∧ m.tags.kingSideCastle then
      b.setBBForPiece BlackRook ((b.bbForPiece BlackRook &&& compl64 (bbForSquare H8)) ||| bbForSquare F8)
    else if p1.Color = Black ∧ m.tags.queenSideCastle then
      b.setBBForPiece BlackRook ((b.bbForPiece BlackRook &&& compl64 (bbForSquare A8)) ||| bbForSquare D8)
    else b
  b.updateKingsMove m

def darkSquares : Nat := 0xAA55AA55AA55AA55
def lightSquares : Nat := 0x55AA55AA55AA55AA

def popCount64 (x : Nat) : Nat :=
  (List.range 64).foldl (fun acc i => acc + (if x.testBit i then 1 else 0)) 0

/-- `Board.hasSufficientMaterial`: false only for the insufficient-material
shapes (K-K, KB-K, KN-K, same-colored-bishops). -/
def Board.hasSufficientMaterial (b : Board) : Bool :=
  if (b.array.getD WhiteQueen 0 ||| b.array.getD WhiteRook 0 ||| b.array.getD WhitePawn 0 |||
      b.array.getD BlackQueen 0 ||| b.array.getD BlackRook 0 ||| b.array.getD BlackPawn 0) ≠ 0 then
    true
  else if b.array.getD WhiteKing 0 = 0 ∨ b.array.getD BlackKing 0 = 0 then
    true
  else
    let count : PieceType → Nat := fun t =>
      popCount64 (b.array.getD t 0) + popCount64 (b.array.getD (t + 16) 0)
    if count Bishop = 0 ∧ count Knight = 0 then false
    else if count Bishop = 1 ∧ count Knight = 0 then false
    else if count Bishop = 0 ∧ count Knight = 1 then false
    else if count Knight = 0 then
      let bishops := b.array.getD WhiteBishop 0 ||| b.array.getD BlackBishop 0
      let lightCount := popCount64 (bishops &&& lightSquares)
      let darkCount := popCount64 (bishops &&& darkSquares)
      if lightCount = 0 ∨ darkCount = 0 then false else true
    else true

/-! ## Castle rights and positions -/

def KingSide : Nat := 1
def QueenSide : Nat := 2

/-- `CastleRights`: a string over {K,Q,k,q,-}; presence of the character is
the test. -/
abbrev CastleRights := String

/-- `CanCastle`: does the given color/side combination still hold its right?
(`strings.Contains` with a one-character needle is character membership.) -/
def CastleRights.CanCastle (cr : CastleRights) (c : Color) (side : Nat) : Bool :=
  let ch : Char := if side = QueenSide then 'q' else 'k'
  let ch := if c = White then ch.toUpper else ch
  strContainsChar cr ch

/-- A position: board, side to move, castle rights, en-passant target,
clocks, the cached `inCheck` flag and the lazily computed valid-move cache
(Go `nil` slice = `none`). -/
structure Position where
  board : Board
  turn : Color
  castleRights : CastleRights
  enPassantSquare : Square
  halfMoveClock : Nat
  moveCount : Nat
  inCheck : Bool
  validMoves : Option (List Move) := none
deriving DecidableEq, Repr

def Position.Turn (pos : Position) : Color := pos.turn

def Position.CastleRights (pos : Position) : Chess.CastleRights := pos.castleRights

/-! ## Sliding attacks -/

/-- The `o^(o-2r)` scalar sliding kernel (engine.go `linearAttack`;
bitflip/chessdata.go declares the identical function on uint64). -/
def linearAttack (occupied pos mask : Nat) : Nat :=
  let oInMask := occupied &&& mask
  (sub64 oInMask (pos <<< 1) ^^^
    reverse64 (sub64 (reverse64 oInMask) (reverse64 pos <<< 1))) &&& mask

/-- Modelled from the spec: `bitflip.BishopRookAttacks` dispatches to
generated AVX assembly (bitflip/asm, not Go source under src/); the spec
requires the SIMD path to match the scalar kernel bit-for-bit, so it is the
union of the two scalar line attacks. -/
def BishopRookAttacks (occupied location mask1 mask2 : Nat) : Nat :=
  linearAttack occupied location mask1 ||| linearAttack occupied location mask2

/-- `diaAttack` (chess package): diagonal and anti-diagonal lines. -/
def diaAttack (occupied : Nat) (sq : Square) : Nat :=
  BishopRookAttacks occupied (bbForSquare sq) (bbDiagonals.getD sq 0) (bbAntiDiagonals.getD sq 0)

/-- `hvAttack` (chess package): rank and file lines, indexed by
`sq.Rank()` and `sq.File()`. -/
def hvAttack (occupied : Nat) (sq : Square) : Nat :=
  BishopRookAttacks occupied (bbForSquare sq) (bbRanks.getD sq.Rank 0) (bbFiles.getD sq.File 0)

def bbGetFirstSquare (bb : Nat) : Square :=
  match (List.range 64).find? (fun i => bb.testBit i) with
  | some i => i
  | none => NoSquare

/-! ## Attack detection and move generation (engine.go) -/

/-- `squaresAreAttacked`: is any of the given squares attacked by a piece of
`turn`'s opponent? (cheap geometric gate, then per-piece attack vectors). -/
def squaresAreAttacked (board : Board) (turn : Color) (sqs : List Square) : Bool :=
  let otherColor := turn.Other
  let occ := board.occupied
  sqs.any fun sq =>
    let dia := diaAttack occ sq
    let hv := hvAttack occ sq
    let s2BB := if turn = Black then board.whiteSqs else board.blackSqs
    if (((dia ||| hv) &&& s2BB) ||| (bbKnightMoves.getD sq 0 &&& s2BB)) = 0 then
      false
    else
      let queenBB := board.bbForPiece (GetPiece Queen otherColor)
      if (dia ||| hv) &&& queenBB ≠ 0 then true
      else
        let rookBB := board.bbForPiece (GetPiece Rook otherColor)
        if hv &&& rookBB ≠ 0 then true
        else
          let bishopBB := board.bbForPiece (GetPiece Bishop otherColor)
          if dia &&& bishopBB ≠ 0 then true
          else
            let knightBB := board.bbForPiece (GetPiece Knight otherColor)
            if bbKnightMoves.getD sq 0 &&& knightBB ≠ 0 then true
            else
              let pawnHit :=
                if turn = White then
                  let capLeft := (board.bbForPiece BlackPawn &&& compl64 bbFileH &&& compl64 bbRank1) >>> 7
                  let capRight := (board.bbForPiece BlackPawn &&& compl64 bbFileA &&& compl64 bbRank1) >>> 9
                  (capRight ||| capLeft) &&& bbForSquare sq ≠ 0
                else
                  let capLeft := (board.bbForPiece WhitePawn &&& compl64 bbFileH &&& compl64 bbRank8) <<< 9
                  let capRight := (board.bbForPiece WhitePawn &&& compl64 bbFileA &&& compl64 bbRank8) <<< 7
                  (capRight ||| capLeft) &&& bbForSquare sq ≠ 0
              if pawnHit then true
              else
                let kingBB := board.bbForPiece (GetPiece King otherColor)
                bbKingMoves.getD sq 0 &&& kingBB ≠ 0

/-- `isInCheck`: the king of `turn` is attacked (false when the king square
is the sentinel, which only happens in tests). -/
def isInCheck (board : Board) (turn : Color) : Bool :=
  let kingSq := if turn = Black then board.blackKingSq else board.whiteKingSq
  if kingSq = NoSquare then false
  else squaresAreAttacked board turn [kingSq]

def bbForPossiblePieceMoves (occupied : Nat) (pt : PieceType) (sq : Square) : Nat :=
  if pt = King then bbKingMoves.getD sq 0
  else if pt = Queen then diaAttack occupied sq ||| hvAttack occupied sq
  else if pt = Rook then hvAttack occupied sq
  else if pt = Bishop then diaAttack occupied sq
  else if pt = Knight then bbKnightMoves.getD sq 0
  else 0

/-- `pawnMoves`: pushes, double pushes and diagonal/en-passant captures for
the pawn on `sq`. -/
def pawnMoves (pos : Position) (sq : Square) : Nat :=
  let bb := bbForSquare sq
  let occupied := pos.board.occupied
  let noccupied := compl64 occupied
  let bbEnPassant := if pos.enPassantSquare ≠ NoSquare then bbForSquare pos.enPassantSquare else 0
  if pos.Turn = White then
    let capRight := ((bb &&& compl64 bbFileH &&& compl64 bbRank8) <<< 9) &&& (pos.board.blackSqs ||| bbEnPassant)
    let capLeft := ((bb &&& compl64 bbFileA &&& compl64 bbRank8) <<< 7) &&& (pos.board.blackSqs ||| bbEnPassant)
    let upOne := ((bb &&& compl64 bbRank8) <<< 8) &&& noccupied
    let upTwo := ((upOne &&& bbRank3) <<< 8) &&& noccupied
    capRight ||| capLeft ||| upOne ||| upTwo
  else
    let capRight := ((bb &&& compl64 bbFileH &&& compl64 bbRank1) >>> 7) &&& (pos.board.whiteSqs ||| bbEnPassant)
    let capLeft := ((bb &&& compl64 bbFileA &&& compl64 bbRank1) >>> 9) &&& (pos.board.whiteSqs ||| bbEnPassant)
    let upOne := ((bb &&& compl64 bbRank1) >>> 8) &&& noccupied
    let upTwo := ((upOne &&& bbRank6) >>> 8) &&& noccupied
    capRight ||| capLeft ||| upOne ||| upTwo

/-- `addTags`: mark capture or en-passant, then test both kings on a scratch
copy of the board with the move applied (the Go scratch-board pool is
borrow-and-return of a value copy, so we just use `Board.update`). -/
def addTags (m : Move) (pos : Position) : Move :=
  let p := if m.piece = NoPiece then pos.board.Piece m.s1 else m.piece
  let m :=
    if pos.board.isOccupied m.s2 then { m with tags.capture := true }
    else if m.s2 = pos.enPassantSquare ∧ p.Type = Pawn then { m with tags.enPassant := true }
    else m
  let tmpBoard := pos.board.update m
  let m := if isInCheck tmpBoard pos.turn then { m with tags.inCheck := true } else m
  let m := if isInCheck tmpBoard pos.turn.Other then { m with tags.check := true } else m
  m

def promoPieceTypes : List PromoType := [PromoQueen, PromoRook, PromoBishop, PromoKnight]

/-- A tagged candidate move, kept unless its `inCheck` tag got set. -/
def keepLegal (m : Move) : List Move := if m.tags.inCheck then [] else [m]

/-- The full list `standardMoves(pos, false)` produces: every non-castle
pseudo-legal move, tagged, with king-unsafe moves dropped and promotions
expanded. -/
def standardMovesAll (pos : Position) : List Move :=
  let bbAllowed := if pos.Turn = Black then compl64 pos.board.blackSqs else compl64 pos.board.whiteSqs
  allPieceTypes.flatMap fun typ =>
    let p := GetPiece typ pos.Turn
    let s1BB := pos.board.bbForPiece p
    if s1BB = 0 then []
    else
      (List.range 64).flatMap fun s1 =>
        if s1BB &&& bbForSquare s1 = 0 then []
        else
          let s2BBraw := if p.Type = Pawn then pawnMoves pos s1
                         else bbForPossiblePieceMoves pos.board.occupied p.Type s1
          let s2BB := s2BBraw &&& bbAllowed
          if s2BB = 0 then []
          else
            (List.range 64).flatMap fun s2 =>
              if s2BB &&& bbForSquare s2 = 0 then []
              else if (p = WhitePawn ∧ Square.Rank s2 = Rank8) ∨ (p = BlackPawn ∧ Square.Rank s2 = Rank1) then
                promoPieceTypes.flatMap fun pt =>
                  keepLegal (addTags { piece := p, s1 := s1, s2 := s2, promo := pt } pos)
              else
                keepLegal (addTags { piece := p, s1 := s1, s2 := s2 } pos)

/-- `standardMoves`: with `first` the Go loop returns as soon as one legal
move has been appended, i.e. the one-element prefix of the full list. -/
def standardMoves (pos : Position) (first : Bool) : List Move :=
  if first then (standardMovesAll pos).take 1 else standardMovesAll pos

/-- `castleMoves`: the up-to-four castle moves whose guards (right held,
between-squares empty, pass/destination squares unattacked, mover not in
check) succeed. -/
def castleMoves (pos : Position) : List Move :=
  let kingSide := pos.castleRights.CanCastle pos.Turn KingSide
  let queenSide := pos.castleRights.CanCastle pos.Turn QueenSide
  let occupied := pos.board.occupied
  (if pos.turn = White ∧ kingSide ∧
      occupied &&& (bbForSquare F1 ||| bbForSquare G1) = 0 ∧
      ¬squaresAreAttacked pos.board pos.turn [F1, G1] ∧
      ¬pos.inCheck then
    [addTags { piece := WhiteKing, s1 := E1, s2 := G1, tags := { kingSideCastle := true } } pos]
  else []) ++
  (if pos.turn = White ∧ queenSide ∧
      occupied &&& (bbForSquare B1 ||| bbForSquare C1 ||| bbForSquare D1) = 0 ∧
      ¬squaresAreAttacked pos.board pos.turn [C1, D1] ∧
      ¬pos.inCheck then
    [addTags { piece := WhiteKing, s1 := E1, s2 := C1, tags := { queenSideCastle := true } } pos]
  else []) ++
  (if pos.turn = Black ∧ kingSide ∧
      occupied &&& (bbForSquare F8 ||| bbForSquare G8) = 0 ∧
      ¬squaresAreAttacked pos.board pos.turn [F8, G8] ∧
      ¬pos.inCheck then
    [addTags { piece := BlackKing, s1 := E8, s2 := G8, tags := { kingSideCastle := true } } pos]
  else []) ++
  (if pos.turn = Black ∧ queenSide ∧
      occupied &&& (bbForSquare B8 ||| bbForSquare C8 ||| bbForSquare D8) = 0 ∧
      ¬squaresAreAttacked pos.board pos.turn [C8, D8] ∧
      ¬pos.inCheck then
    [addTags { piece := BlackKing, s1 := E8, s2 := C8, tags := { queenSideCastle := true } } pos]
  else [])

/-- `engine.CalcMoves`: the standard moves followed by the castle moves. -/
def CalcMoves (pos : Position) (first : Bool) : List Move :=
  standardMoves pos first ++ castleMoves pos

/-! ## Methods and status -/

abbrev Method := Nat

def NoMethod : Method := 0
def Checkmate : Method := 1
def Resignation : Method := 2
def DrawOffer : Method := 3
def Stalemate : Method := 4
def ThreefoldRepetition : Method := 5
def FivefoldRepetition : Method := 6
def FiftyMoveRule : Method := 7
def SeventyFiveMoveRule : Method := 8
def InsufficientMaterial : Method := 9

/-- `engine.Status`: Stalemate / Checkmate / NoMethod from the cached
valid-move list when present, else from a first-move-only generation. -/
def engineStatus (pos : Position) : Method :=
  let hasMove :=
    match pos.validMoves with
    | some l => decide (0 < l.length)
    | none => decide (0 < (CalcMoves pos true).length)
  if !pos.inCheck && !hasMove then Stalemate
  else if pos.inCheck && !hasMove then Checkmate
  else NoMethod

def Position.Status (pos : Position) : Method := engineStatus pos

/-- `Position.ValidMoves`: the cached list when present, else a full
generation (the Go method also stores the list in the cache and hands out a
copy; the observable value is the same). -/
def Position.ValidMoves (pos : Position) : List Move :=
  match pos.validMoves with
  | some l => l
  | none => CalcMoves pos false

/-- `ensureValidMoves` as a state transformer: fill the cache if empty. -/
def Position.ensureValidMoves (pos : Position) : Position :=
  match pos.validMoves with
  | some _ => pos
  | none => { pos with validMoves := some (CalcMoves pos false) }

/-! ## Position update (san_decode.go part 2) -/

def removeAllChar (s : String) (c : Char) : String :=
  String.mk (s.toList.filter (fun x => x ≠ c))

/-- `updateCastleRights`: strip a right whenever the king moved or the
rook's home square is origin or destination of the move. -/
def Position.updateCastleRights (pos : Position) (m : Move) : Chess.CastleRights :=
  let cr := pos.castleRights
  let p := if m.piece = NoPiece then pos.board.Piece m.s1 else m.piece
  let cr := if p = WhiteKing ∨ m.s1 = H1 ∨ m.s2 = H1 then removeAllChar cr 'K' else cr
  let cr := if p = WhiteKing ∨ m.s1 = A1 ∨ m.s2 = A1 then removeAllChar cr 'Q' else cr
  let cr := if p = BlackKing ∨ m.s1 = H8 ∨ m.s2 = H8 then removeAllChar cr 'k' else cr
  let cr := if p = BlackKing ∨ m.s1 = A8 ∨ m.s2 = A8 then removeAllChar cr 'q' else cr
  if cr = "" then "-" else cr

/-- `updateEnPassantSquare`: the square behind a double pawn push, else the
sentinel. -/
def Position.updateEnPassantSquare (pos : Position) (m : Move) : Square :=
  let p := if m.piece = NoPiece then pos.board.Piece m.s1 else m.piece
  if p.Type ≠ Pawn then NoSquare
  else if pos.turn = White ∧ bbForSquare m.s1 &&& bbRank2 ≠ 0 ∧ bbForSquare m.s2 &&& bbRank4 ≠ 0 then
    m.s2 - 8
  else if pos.turn = Black ∧ bbForSquare m.s1 &&& bbRank7 ≠ 0 ∧ bbForSquare m.s2 &&& bbRank5 ≠ 0 then
    m.s2 + 8
  else NoSquare

/-- `Position.Update`: the successor position of a move (no validation). -/
def Position.Update (pos : Position) (m : Move) : Position :=
  let moveCount := if pos.turn = Black then pos.moveCount + 1 else pos.moveCount
  let cr := pos.CastleRights
  let ncr := pos.updateCastleRights m
  let p := if m.piece = NoPiece then pos.board.Piece m.s1 else m.piece
  let halfMove := if p.Type = Pawn ∨ m.tags.capture ∨ cr ≠ ncr then 0 else pos.halfMoveClock + 1
  { board := pos.board.update m
    turn := pos.turn.Other
    castleRights := ncr
    enPassantSquare := pos.updateEnPassantSquare m
    halfMoveClock := halfMove
    moveCount := moveCount
    inCheck := m.tags.check
    validMoves := none }

/-- `samePosition`: board bitboards, side to move, castle-rights string and
en-passant square (clocks deliberately ignored). -/
def Position.samePosition (pos pos2 : Position) : Bool :=
  pos.board.Eq pos2.board &&
  pos.turn == pos2.turn &&
  pos.castleRights == pos2.castleRights &&
  pos.enPassantSquare == pos2.enPassantSquare

/-! ## FEN maps (fen.go is not under src/; modelled from the spec) -/

/-- Modelled from the spec: fen.go's `fenPieceMap`, the standard FEN piece
letters (uppercase White, lowercase Black). -/
def fenPieceMap : List (String × Piece) :=
  [("K", WhiteKing), ("Q", WhiteQueen), ("R", WhiteRook), ("B", WhiteBishop),
   ("N", WhiteKnight), ("P", WhitePawn), ("k", BlackKing), ("q", BlackQueen),
   ("r", BlackRook), ("b", BlackBishop), ("n", BlackKnight), ("p", BlackPawn)]

/-- A `fenPieceMap[x]` read without the `ok` test: a missing key yields Go's
zero value `Piece(0)` (which is WhiteKing). -/
def fenPieceMapGet (s : String) : Piece :=
  ((fenPieceMap.find? (fun p => p.1 = s)).map (·.2)).getD 0

/-- `pieceFromChar`: the map read with the `ok` test (missing → NoPiece). -/
def pieceFromChar (c : Char) : Piece :=
  ((fenPieceMap.find? (fun p => p.1 = String.mk [c])).map (·.2)).getD NoPiece

/-- Modelled from the spec: fen.go's `strToSquareMap` read without the `ok`
test; "a1".."h8" map to 0..63, a missing key yields Go's zero value
`Square(0)`. -/
def strToSquareMapGet (s : String) : Square :=
  match s.toList with
  | [f, r] =>
    if 'a' ≤ f ∧ f ≤ 'h' ∧ '1' ≤ r ∧ r ≤ '8' then
      (r.toNat - '1'.toNat) * 8 + (f.toNat - 'a'.toNat)
    else 0
  | _ => 0

/-- Modelled from the spec: `strToSquareMap` read with the `ok` test. -/
def strToSquareMapFind (s : String) : Option Square :=
  match s.toList with
  | [f, r] =>
    if 'a' ≤ f ∧ f ≤ 'h' ∧ '1' ≤ r ∧ r ≤ '8' then
      some ((r.toNat - '1'.toNat) * 8 + (f.toNat - 'a'.toNat))
    else none
  | _ => none

/-- Modelled from the spec: a square's FEN name, file letter then rank
digit. -/
def squareToString (sq : Square) : String :=
  String.mk [Char.ofNat ('a'.toNat + sq.File), Char.ofNat ('1'.toNat + sq.Rank)]

def fileToString (f : Nat) : String := String.mk [Char.ofNat ('a'.toNat + f)]

def rankToString (r : Nat) : String := String.mk [Char.ofNat ('1'.toNat + r)]

/-! ## parseSAN (san_decode.go part 1) -/

/-- `parseSANQuality`: drop the `!` and `?` quality markers. -/
def parseSANQuality (s : String) : String :=
  strReplaceAll (strReplaceAll s "!" "") "?" ""

def promoOfTailPair (t : String) : Option PromoType :=
  if t = "=Q" ∨ t = "=q" then some PromoQueen
  else if t = "=R" ∨ t = "=r" then some PromoRook
  else if t = "=B" ∨ t = "=b" then some PromoBishop
  else if t = "=N" ∨ t = "=n" then some PromoKnight
  else none

/-- `parseSANTail`: the annotations after the destination square
(en-passant markers, check/mate, promotion); anything left over is an
error.  (Where Go would slice out of range on a trailing lone `=` it
panics; here the promotion parse just fails.) -/
def parseSANTail (move : Move) (s : String) : Except String Move :=
  if s = "" then .ok move
  else
    let s := parseSANQuality s
    if s = "" then .ok move
    else
      let (move, s) := if containsSub s "ep" then
          ({ move with tags.enPassant := true }, strReplaceAll s "ep" "") else (move, s)
      let (move, s) := if containsSub s "e.p." then
          ({ move with tags.enPassant := true }, strReplaceAll s "e.p." "") else (move, s)
      let (move, s) := if containsSub s "+" then
          ({ move with tags.check := true }, strReplaceAll s "+" "") else (move, s)
      let (move, s) := if containsSub s "#" then
          ({ move with tags.check := true }, strReplaceAll s "#" "") else (move, s)
      let cs := s.toList
      match cs.findIdx? (fun c => c = '=') with
      | some idx =>
        match promoOfTailPair (String.mk (cs.drop idx |>.take 2)) with
        | some promo =>
          let s := String.mk (cs.take idx ++ cs.drop (idx + 2))
          let move := { move with promo := promo }
          if s ≠ "" then .error ("parseSANTail: Remaining tail characters: " ++ s)
          else .ok move
        | none => .error ("parseSANTail: detected promotion but can't parse " ++ s)
      | none =>
        if s ≠ "" then .error ("parseSANTail: Remaining tail characters: " ++ s)
        else .ok move

def validateFromBB (fromSquareBB : Nat) (toSq : Square) : Except String Square :=
  if fromSquareBB = 0 then
    .error "validateFromBB: couldn't find any potential pieces to move"
  else if popCount64 fromSquareBB ≠ 1 then
    .error "validateFromBB: More than one apparent potential from piece"
  else .ok (bbGetFirstSquare fromSquareBB)

/-- `findAndValidatePawnSquare`.  (For a destination on rank 1 as White or
rank 8 as Black, Go indexes `bbRanks` out of range and panics; the
embedding's `getD`/truncated subtraction return a bitboard instead.) -/
def findAndValidatePawnSquare (p : Piece) (toSq : Square) (fileHint : Option Nat)
    (pos : Position) : Except String Square :=
  let currentPawns := pos.board.bbForPiece p
  let file := match fileHint with
    | none => toSq.File
    | some f => f
  if file > 7 then .error "How?"
  else
    let filePawns := currentPawns &&& bbFiles.getD file 0
    let pawnBB :=
      if pos.Turn = White then
        let bb := filePawns &&& bbRanks.getD (toSq.Rank - 1) 0
        if bb = 0 ∧ toSq.Rank = Rank4 then filePawns &&& bbRank2 else bb
      else
        let bb := filePawns &&& bbRanks.getD (toSq.Rank + 1) 0
        if bb = 0 ∧ toSq.Rank = Rank5 then filePawns &&& bbRank7 else bb
    validateFromBB pawnBB toSq

/-- `findAndValidateFromSquare`: resolve the origin square from the piece
bitboard and the optional file/rank disambiguators.  (An out-of-range hint
would panic in Go; `getD` returns an empty mask.) -/
def findAndValidateFromSquare (p : Piece) (toSq : Square) (fileHint rankHint : Option Nat)
    (pos : Position) : Except String Square :=
  if p.Type = Pawn then findAndValidatePawnSquare p toSq fileHint pos
  else
    let currentPieces := pos.board.bbForPiece p
    let currentPieces := match fileHint with
      | some f => currentPieces &&& bbFiles.getD f 0
      | none => currentPieces
    let currentPieces := match rankHint with
      | some r => currentPieces &&& bbRanks.getD r 0
      | none => currentPieces
    if popCount64 currentPieces = 1 then validateFromBB currentPieces toSq
    else
      let occupied := pos.board.occupied
      let thisSq := bbForSquare toSq
      match (List.range 64).findSome? (fun i =>
          if currentPieces.testBit i ∧
             thisSq &&& bbForPossiblePieceMoves occupied p.Type i ≠ 0 then
            some i
          else none) with
      | some i => validateFromBB (bbForSquare i) toSq
      | none => .error "Can't find a potential piece to move"

/-- The head-parse outcome of `parseSAN`'s switch on the head length:
a piece type and the optional file/rank hints, or an error. -/
def parseSANHead (head : List Char) (originalMove : String) :
    Except String (PieceType × Option Nat × Option Nat) :=
  match head.length with
  | 0 => .ok (Pawn, none, none)
  | 1 =>
    let c := head.getD 0 ' '
    if c.toNat < 0x60 then
      .ok ((fenPieceMapGet (String.mk [c])).Type, none, none)
    else
      let fileHint := (c.toNat + 256 - 0x61) % 256
      if fileHint > 7 then
        .error ("parseSAN: invalid capitalization for move " ++ originalMove)
      else .ok (Pawn, some fileHint, none)
  | 2 =>
    let typ := (fenPieceMapGet (String.mk (head.take 1))).Type
    let c := head.getD 1 ' '
    if 0x30 < c.toNat ∧ c.toNat < 0x3A then
      .ok (typ, none, some ((c.toNat + 256 - 0x31) % 256))
    else if c.toNat < 0x60 then
      .ok (typ, some ((c.toNat + 256 - 0x41) % 256), none)
    else
      .ok (typ, some ((c.toNat + 256 - 0x61) % 256), none)
  | 3 =>
    let typ := (fenPieceMapGet (String.mk (head.take 1))).Type
    let fromSq := strToSquareMapGet (strToLower (String.mk (head.drop 1)))
    .ok (typ, some fromSq.File, some fromSq.Rank)
  | _ =>
    -- Go's switch has no default: `typ` keeps its zero value, King.
    .ok (King, none, none)

/-- `parseSAN`: the hand-written SAN parser used by the PGN decode path.
Note the kingside-castling branch tags the move `QueenSideCastle`, exactly
as the source does. -/
def parseSAN (s : String) (pos : Position) : Except String Move :=
  if s = "--" then .ok {}
  else
    let s := strTrim s
    if s.length < 2 then .error "parseSAN: invalid move"
    else if strStartsWith s "O-O-O" ∨ strStartsWith s "0-0-0" then
      let move : Move := { tags := { queenSideCastle := true } }
      let move := if pos.turn = White then
          { move with piece := WhiteKing, s1 := E1, s2 := C1 }
        else { move with piece := BlackKing, s1 := E8, s2 := C8 }
      parseSANTail move (strDrop s 5)
    else if strStartsWith s "O-O" ∨ strStartsWith s "0-0" then
      let move : Move := { tags := { queenSideCastle := true } }
      let move := if pos.turn = White then
          { move with piece := WhiteKing, s1 := E1, s2 := G1 }
        else { move with piece := BlackKing, s1 := E8, s2 := G8 }
      parseSANTail move (strDrop s 3)
    else
      let originalMove := s
      let cs := s.toList
      match cs.findIdxs (fun c => c.isDigit) |>.getLast? with
      | none => .error ("parseSAN: couldn't find a square number in " ++ originalMove)
      | some lastNum =>
        if lastNum < 1 then
          .error ("parseSAN: couldn't find a square number in " ++ originalMove)
        else
          let head := cs.take (lastNum - 1)
          let toSquareStr := String.mk ((cs.drop (lastNum - 1)).take 2)
          let toSq := strToSquareMapGet (strToLower toSquareStr)
          let tail := String.mk (cs.drop (lastNum + 1))
          let (move, head) : Move × List Char :=
            if head.contains 'x' then
              ({ tags := { capture := true } }, head.filter (fun c => c ≠ 'x'))
            else ({}, head)
          match parseSANHead head originalMove with
          | .error e => .error e
          | .ok (typ, fileHint, rankHint) =>
            if typ = NoPieceType then
              .error ("parseSAN: Couldn't deduce a piece type for " ++ originalMove)
            else
              let move := { move with piece := GetPiece typ pos.Turn }
              let p := pos.board.pieceAt toSq
              if p ≠ NoPiece ∧ p.Color ≠ pos.turn.Other then
                if p.Type = Rook ∧ typ = King ∧ p.Color = White ∧
                   pos.board.whiteKingSq = E1 ∧ (toSq = A1 ∨ toSq = H1) then
                  let move := { move with s1 := E1 }
                  let move := if toSq = A1 then
                      { move with tags.queenSideCastle := true, s2 := C1 }
                    else { move with tags.kingSideCastle := true, s2 := G1 }
                  parseSANTail move tail
                else if p.Type = Rook ∧ typ = King ∧ p.Color = Black ∧
                   pos.board.blackKingSq = E8 ∧ (toSq = A8 ∨ toSq = H8) then
                  let move := { move with s1 := E8 }
                  let move := if toSq = A8 then
                      { move with tags.queenSideCastle := true, s2 := C8 }
                    else { move with tags.kingSideCastle := true, s2 := G8 }
                  parseSANTail move tail
                else .error ("parseSAN: " ++ originalMove ++ " apparently trying to capture own piece?")
              else if p ≠ NoPiece ∧ ¬move.tags.capture then
                .error ("parseSAN: " ++ originalMove ++ " appears to not capture but is moving onto a piece")
              else
                match findAndValidateFromSquare move.piece toSq fileHint rankHint pos with
                | .error e => .error ("parseSAN: for move " ++ originalMove ++ ", fAVS err: " ++ e)
                | .ok s1 =>
                  parseSANTail { move with s1 := s1, s2 := toSq } tail

/-! ## Notation codec (notation.go, in src/move.go part 2) -/

def charForPromo (p : PromoType) : String :=
  if p = PromoBishop then "=B"
  else if p = PromoKnight then "=N"
  else if p = PromoQueen then "=Q"
  else if p = PromoRook then "=R"
  else ""

def charFromPieceType (p : PieceType) : String :=
  if p = King then "K"
  else if p = Queen then "Q"
  else if p = Rook then "R"
  else if p = Bishop then "B"
  else if p = Knight then "N"
  else ""

def pieceTypeFromChar (c : String) : PieceType :=
  if c = "q" then Queen
  else if c = "r" then Rook
  else if c = "b" then Bishop
  else if c = "n" then Knight
  else NoPieceType

/-! ## FEN decoding (fen.go is not under src/; modelled from the spec §4.9) -/

/-- Modelled from the spec: parse one FEN board rank into squares/pieces
starting at the given rank; digits 1..8 skip empty squares, FEN piece
letters place pieces, anything else is an error. -/
def fenRank (rank : Nat) (cs : List Char) : Except String (List (Square × Piece)) :=
  let step := fun (acc : Except String (Nat × List (Square × Piece))) (c : Char) =>
    match acc with
    | .error e => .error e
    | .ok (file, out) =>
      if '1' ≤ c ∧ c ≤ '8' then .ok (file + (c.toNat - '0'.toNat), out)
      else
        let p := pieceFromChar c
        if p = NoPiece then .error "fen: unknown character"
        else .ok (file + 1, out ++ [(NewSquare file rank, p)])
  match cs.foldl step (.ok (0, [])) with
  | .error e => .error e
  | .ok (file, out) => if file = 8 then .ok out else .error "fen: bad rank width"

/-- Modelled from the spec: `fenBoard` parses the FEN piece-placement field
(8 ranks, top rank first, separated by `/`). -/
def fenBoard (s : String) : Except String Board :=
  let rankStrs := strSplitOnChar '/' s
  if rankStrs.length ≠ 8 then .error "fen: board must have 8 ranks"
  else
    let placed := (rankStrs.enum.map (fun ri => fenRank (7 - ri.1) ri.2.toList)).foldl
      (fun (acc r : Except String (List (Square × Piece))) => match acc, r with
        | .ok l, .ok l2 => .ok (l ++ l2)
        | .error e, _ => .error e
        | _, .error e => .error e)
      (.ok [])
    match placed with
    | .error e => .error e
    | .ok l =>
      let b0 : Board := { array := List.replicate 22 0, whiteKingSq := NoSquare, blackKingSq := NoSquare }
      let b := l.foldl (fun b sp => b.setBBForPiece sp.2 (b.bbForPiece sp.2 ||| bbForSquare sp.1)) b0
      .ok b.updateKingsScan

/-- Modelled from the spec: `decodeFEN` parses the six space-separated FEN
fields into a `Position` (the constructor computes `inCheck` the way
`NewPositionAtTime` does). -/
def decodeFEN (s : String) : Except String Position :=
  match strSplitOnChar ' ' s with
  | [bStr, tStr, crStr, epStr, halfStr, fullStr] =>
    match fenBoard bStr with
    | .error e => .error e
    | .ok board =>
      let turn : Option Color := if tStr = "w" then some White else if tStr = "b" then some Black else none
      let ep : Option Square :=
        if epStr = "-" then some NoSquare
        else match strToSquareMapFind epStr with
          | some sq => some sq
          | none => none
      match turn, ep, strToNatOpt halfStr, strToNatOpt fullStr with
      | some t, some e, some half, some full =>
        .ok { board := board, turn := t, castleRights := crStr, enPassantSquare := e,
              halfMoveClock := half, moveCount := full, inCheck := isInCheck board t }
      | _, _, _, _ => .error "fen: bad field"
  | _ => .error "fen: must have 6 fields"

def startFEN : String := "rnbqkbnr/pppppppp/8/8/8/8/PPPPPPPP/RNBQKBNR w KQkq - 0 1"

/-- A harmless fallback position (Go would dereference nil instead; only
reachable if `startFEN` failed to parse, which it does not). -/
def emptyPosition : Position :=
  { board := { array := List.replicate 22 0, whiteKingSq := NoSquare, blackKingSq := NoSquare },
    turn := White, castleRights := "-", enPassantSquare := NoSquare,
    halfMoveClock := 0, moveCount := 1, inCheck := false }

/-- `StartingPosition`: decode of the standard start FEN. -/
def StartingPosition : Position :=
  match decodeFEN startFEN with
  | .ok p => p
  | .error _ => emptyPosition

/-! ## SAN encoding and decoding (notation.go) -/

/-- `getCheckChar`: `#` when the move gives mate, `+` when it only checks. -/
def getCheckChar (pos : Position) (move : Move) : String :=
  if ¬move.tags.check then ""
  else if (pos.Update move).Status = Checkmate then "#"
  else "+"

/-- `formS1`: the SAN disambiguator of a non-pawn, non-king move against
the other valid moves of the same piece landing on the same square. -/
def formS1 (pos : Position) (m : Move) (moves : Option (List Move)) : String :=
  let p := if m.piece = NoPiece then pos.board.Piece m.s1 else m.piece
  if p.Type = Pawn ∨ p.Type = King then ""
  else
    let moves := match moves with
      | none => pos.ValidMoves
      | some l => l
    let rfr := moves.foldl
      (fun (acc : Bool × Bool × Bool) mv =>
        let (req, fileReq, rankReq) := acc
        if mv.s1 ≠ m.s1 ∧ mv.s2 = m.s2 ∧ p = mv.piece then
          (true,
           fileReq || (mv.s1.Rank = m.s1.Rank : Bool),
           rankReq || (mv.s1.File = m.s1.File : Bool))
        else acc)
      (false, false, false)
    let (req, fileReq, rankReq) := rfr
    let s1 := if fileReq || (!rankReq && req) then fileToString m.s1.File else ""
    if rankReq then s1 ++ rankToString m.s1.Rank else s1

/-- `encodeSANInternal`: canonical SAN of a move in a position, with the
valid-move list supplied for disambiguation when available. -/
def encodeSANInternal (pos : Position) (m : Move) (validMoves : Option (List Move)) : String :=
  let checkChar := getCheckChar pos m
  if m.tags.kingSideCastle then "O-O" ++ checkChar
  else if m.tags.queenSideCastle then "O-O-O" ++ checkChar
  else
    let p := if m.piece = NoPiece then pos.board.Piece m.s1 else m.piece
    let pChar := charFromPieceType p.Type
    let s1Str := formS1 pos m validMoves
    let capChar :=
      if m.tags.capture || m.tags.enPassant then
        if p.Type = Pawn ∧ s1Str = "" then fileToString m.s1.File ++ "x" else "x"
      else ""
    let promoText := charForPromo m.promo
    pChar ++ s1Str ++ capChar ++ squareToString m.s2 ++ promoText ++ checkChar

def Position.EncodeSAN (pos : Position) (m : Move) : String :=
  encodeSANInternal pos m none

/-- `([+#!?]|e\.p\.)*` must consume the whole remainder. -/
def matchAnnots : List Char → Bool
  | [] => true
  | 'e' :: '.' :: 'p' :: '.' :: rest => matchAnnots rest
  | c :: rest =>
    if c = '+' ∨ c = '#' ∨ c = '!' ∨ c = '?' then matchAnnots rest else false

def isSANFile (c : Char) : Bool := 'a' ≤ c ∧ c ≤ 'h'

/-- The `pgnRegex` normal alternative
`([RNBQKP]?)([a-h]?)(\d?)(x?)([a-h])(\d)(=[QRBN])?` followed by the
annotation star, with leftmost-greedy backtracking over the optional
groups; yields the seven captured strings. -/
def matchNormalParts (cs : List Char) : Option (List String) :=
  let pieceChoices : List (String × List Char) :=
    match cs with
    | c :: rest =>
      if c = 'R' ∨ c = 'N' ∨ c = 'B' ∨ c = 'Q' ∨ c = 'K' ∨ c = 'P' then
        [(String.mk [c], rest), ("", cs)]
      else [("", cs)]
    | [] => [("", cs)]
  pieceChoices.findSome? fun pc =>
    let ofChoices : List (String × List Char) :=
      match pc.2 with
      | c :: rest => if isSANFile c then [(String.mk [c], rest), ("", pc.2)] else [("", pc.2)]
      | [] => [("", pc.2)]
    ofChoices.findSome? fun oc =>
      let orChoices : List (String × List Char) :=
        match oc.2 with
        | c :: rest => if c.isDigit then [(String.mk [c], rest), ("", oc.2)] else [("", oc.2)]
        | [] => [("", oc.2)]
      orChoices.findSome? fun rc =>
        let capChoices : List (String × List Char) :=
          match rc.2 with
          | 'x' :: rest => [("x", rest), ("", rc.2)]
          | _ => [("", rc.2)]
        capChoices.findSome? fun cc =>
          match cc.2 with
          | f :: r :: rest =>
            if isSANFile f ∧ r.isDigit then
              let promoChoices : List (String × List Char) :=
                match rest with
                | '=' :: p :: rest2 =>
                  if p = 'Q' ∨ p = 'R' ∨ p = 'B' ∨ p = 'N' then
                    [(String.mk ['=', p], rest2), ("", rest)]
                  else [("", rest)]
                | _ => [("", rest)]
              promoChoices.findSome? fun prc =>
                if matchAnnots prc.2 then
                  some [pc.1, oc.1, rc.1, cc.1, String.mk [f], String.mk [r], prc.1]
                else none
            else none
          | _ => none

/-- The `pgnRegex` castling alternative `(O-O(?:-O)?)` with annotations. -/
def matchCastlesParts (cs : List Char) : Option String :=
  match cs with
  | 'O' :: '-' :: 'O' :: '-' :: 'O' :: rest =>
    if matchAnnots rest then some "O-O-O"
    else if matchAnnots ('-' :: 'O' :: rest) then some "O-O" else none
  | 'O' :: '-' :: 'O' :: rest => if matchAnnots rest then some "O-O" else none
  | _ => none

/-- `algebraicNotationParts`: submatch groups 1..8 of the anchored
`pgnRegex` (piece, origin file, origin rank, capture, file, rank,
promotion, castles), or an error when the string is not in the language. -/
def algebraicNotationParts (s : String) : Except String (List String) :=
  match matchNormalParts s.toList with
  | some parts => .ok (parts ++ [""])
  | none =>
    match matchCastlesParts s.toList with
    | some castles => .ok (["", "", "", "", "", "", "", castles])
    | none => .error ("could not decode algebraic notation " ++ s)

/-- `DecodeSAN`: first match the input as a prefix of a canonical SAN of a
valid move; then re-canonicalize through the permissive regex and retry;
then retry with over-specified disambiguators dropped. -/
def Position.DecodeSAN (pos : Position) (s : String) : Except String Move :=
  let valid := pos.ValidMoves
  let pairs := valid.map (fun m => (m, encodeSANInternal pos m (some valid)))
  match (pairs.find? (fun p => strStartsWith p.2 s)).map (·.1) with
  | some m => .ok m
  | none =>
    match algebraicNotationParts s with
    | .error e => .error ("chess: " ++ e)
    | .ok parts =>
      let piece := parts.getD 0 ""
      let originFile := parts.getD 1 ""
      let originRank := parts.getD 2 ""
      let capture := parts.getD 3 ""
      let file := parts.getD 4 ""
      let rank := parts.getD 5 ""
      let promotes := parts.getD 6 ""
      let castles := parts.getD 7 ""
      let cleaned := piece ++ originFile ++ originRank ++ capture ++ file ++ rank ++ promotes ++ castles
      match (pairs.find? (fun p => strStartsWith p.2 cleaned)).map (·.1) with
      | some m => .ok m
      | none =>
        let options : List String :=
          if piece ≠ "" then
            [piece ++ capture ++ file ++ rank ++ promotes ++ castles,
             piece ++ originRank ++ capture ++ file ++ rank ++ promotes ++ castles,
             piece ++ originFile ++ capture ++ file ++ rank ++ promotes ++ castles]
          else
            (if capture ≠ "" then
              [piece ++ originFile ++ capture ++ file ++ rank ++ promotes ++ castles]
            else []) ++
            (if originFile ≠ "" ∧ originRank ≠ "" then
              [piece ++ capture ++ file ++ rank ++ promotes ++ castles]
            else [])
        match (pairs.find? (fun p => options.any (fun opt => strStartsWith p.2 opt))).map (·.1) with
        | some m => .ok m
        | none => .error ("chess: could not decode algebraic notation " ++ s)

/-- `DecodeUCI`: two squares and an optional promotion letter; castle and
capture tags are derived from the position. -/
def Position.DecodeUCI (pos : Position) (s : String) : Except String Move :=
  let l := s.length
  if l < 4 ∨ l > 5 then .error ("chess: failed to decode " ++ s)
  else
    match strToSquareMapFind (String.mk (s.toList.take 2)),
          strToSquareMapFind (String.mk ((s.toList.drop 2).take 2)) with
    | some s1, some s2 =>
      let promoT := if l = 5 then pieceTypeFromChar (String.mk (s.toList.drop 4)) else NoPieceType
      if l = 5 ∧ promoT = NoPieceType then .error ("chess: failed to decode " ++ s)
      else
        let m : Move := { s1 := s1, s2 := s2, promo := promoFromPieceType promoT }
        let p := pos.board.Piece s1
        let m := { m with piece := p }
        let m :=
          if p.Type = King then
            if (s1 = E1 ∧ s2 = G1) ∨ (s1 = E8 ∧ s2 = G8) then { m with tags.kingSideCastle := true }
            else if (s1 = E1 ∧ s2 = C1) ∨ (s1 = E8 ∧ s2 = C8) then { m with tags.queenSideCastle := true }
            else m
          else if p.Type = Pawn ∧ s2 = pos.enPassantSquare then
            { m with tags.enPassant := true, tags.capture := true }
          else m
        let c1 := p.Color
        let c2 := (pos.board.Piece s2).Color
        let m := if c2 ≠ NoColor ∧ c1 ≠ c2 then { m with tags.capture := true } else m
        .ok m
    | _, _ => .error ("chess: failed to decode " ++ s)

/-- `DecodeMove` with no notation argument: SAN, then Long Algebraic (which
defers to SAN), then UCI. -/
def Position.DecodeMove (pos : Position) (s : String) : Except String Move :=
  match pos.DecodeSAN s with
  | .ok m => .ok m
  | .error _ =>
    -- DecodeLongAlgebraic defers to DecodeSAN
    match pos.DecodeSAN s with
    | .ok m => .ok m
    | .error _ =>
      match pos.DecodeUCI s with
      | .ok m => .ok m
      | .error _ => .error ("chess: failed to decode notation text " ++ s)

/-! ## Outcomes and games -/

abbrev Outcome := String

def NoOutcome : Outcome := "*"
def WhiteWon : Outcome := "1-0"
def BlackWon : Outcome := "0-1"
def Draw : Outcome := "1/2-1/2"

/-- A game: tag pairs, move history, position history (`positions.getLast`
is the current `pos`), outcome, method, and the flag suppressing automatic
draws.  (The `Notation` preference field only feeds `encodePGN`, which is
not modelled; Go's tag-pair map becomes an association list.) -/
structure Game where
  tagPairs : List (String × String) := []
  moves : List Move := []
  positions : List Position := []
  pos : Position
  outcome : Outcome := NoOutcome
  method : Method := NoMethod
  ignoreAutomaticDraws : Bool := false
deriving DecidableEq, Repr

/-- `NewGame`: the standard opening position. -/
def NewGame : Game :=
  { moves := [], pos := StartingPosition, positions := [StartingPosition],
    outcome := NoOutcome, method := NoMethod }

def Game.ValidMoves (g : Game) : List Move := g.pos.ValidMoves

def Game.Positions (g : Game) : List Position := g.positions

/-- `numOfRepetitions`: how many positions of the history the current
position repeats (by `samePosition`). -/
def Game.numOfRepetitions (g : Game) : Nat :=
  g.Positions.foldl (fun count pos => if g.pos.samePosition pos then count + 1 else count) 0

/-- `updatePosition`: terminal-state detection after a move (stalemate,
checkmate, and - unless suppressed - the automatic draws). -/
def Game.updatePosition (g : Game) : Game :=
  let method := g.pos.Status
  let g :=
    if method = Stalemate then { g with method := Stalemate, outcome := Draw }
    else if method = Checkmate then
      { g with method := Checkmate,
               outcome := if g.pos.Turn = White then BlackWon else WhiteWon }
    else g
  if g.outcome ≠ NoOutcome then g
  else
    let g := if ¬g.ignoreAutomaticDraws ∧ 5 ≤ g.numOfRepetitions then
        { g with outcome := Draw, method := FivefoldRepetition } else g
    let g := if ¬g.ignoreAutomaticDraws ∧ 150 ≤ g.pos.halfMoveClock ∧ g.method ≠ Checkmate then
        { g with outcome := Draw, method := SeventyFiveMoveRule } else g
    if ¬g.ignoreAutomaticDraws ∧ ¬g.pos.board.hasSufficientMaterial then
      { g with outcome := Draw, method := InsufficientMaterial } else g

/-- Modelled from the spec: `moveSlice.find` (not under src/) searches the
valid-move list for the first entry equal to the candidate under `Move.Eq`
(origin, destination, promotion only). -/
def moveSliceFind (ms : List Move) (m : Move) : Option Move :=
  ms.find? (fun v => v.Eq m)

/-- `Game.Move`: validate against the valid-move list, then append the
canonical in-list move and update the position; an invalid move returns an
error with the game unchanged.  The Go method mutates the receiver and
returns `error`; here it returns `(error?, new game)`. -/
def Game.Move (g : Game) (m : Move) : Option String × Game :=
  match moveSliceFind g.ValidMoves m with
  | none => (some "chess: invalid move", g)
  | some valid =>
    let pos := g.pos.Update valid
    let g := { g with moves := g.moves ++ [valid], pos := pos,
                      positions := g.positions ++ [pos] }
    (none, g.updatePosition)

/-- `Game.Draw`: claim a draw; threefold repetition and the fifty-move rule
validate their preconditions and return an error (game unchanged) when not
met. -/
def Game.Draw (g : Game) (method : Method) : Option String × Game :=
  if method = ThreefoldRepetition then
    if g.numOfRepetitions < 3 then
      (some "chess: draw by ThreefoldRepetition requires at least three repetitions of the current board state", g)
    else (none, { g with outcome := Chess.Draw, method := method })
  else if method = FiftyMoveRule then
    if g.pos.halfMoveClock < 100 then
      (some "chess: draw by FiftyMoveRule requires the half move clock to be at 100 or greater", g)
    else (none, { g with outcome := Chess.Draw, method := method })
  else if method = DrawOffer then
    (none, { g with outcome := Chess.Draw, method := method })
  else (some "chess: unsupported draw method", g)

/-- `AddTagPair`: insert or overwrite a tag pair (the Go map's bool result
is dropped). -/
def Game.AddTagPair (g : Game) (k v : String) : Game :=
  if g.tagPairs.any (fun p => p.1 = k) then
    { g with tagPairs := g.tagPairs.map (fun p => if p.1 = k then (k, v) else p) }
  else { g with tagPairs := g.tagPairs ++ [(k, v)] }

/-- `NewGameFromFEN`: a game whose single position comes from the FEN. -/
def NewGameFromFEN (fen : String) : Except String Game :=
  match decodeFEN fen with
  | .error e => .error e
  | .ok pos =>
    let pos := { pos with inCheck := isInCheck pos.board pos.turn }
    let g := { NewGame with pos := pos, positions := [pos] }
    .ok g.updatePosition

/-! ## PGN tag pairs and tokenizing (src/unnamed/part_001) -/

/-- `stripTagPairs`: drop blank lines and `[`-prefixed lines. -/
def stripTagPairs (pgn : String) : String :=
  strJoin "\n"
    (((strSplitOnChar '\n' pgn).map strTrim).filter
      (fun line => line ≠ "" ∧ ¬strStartsWith line "["))

/-- One line's match of the greedy tag-pair regex `\[(.*)\s\"(.*)\"\]`
(`.` does not cross lines): the match starts at the first `[`, ends at the
last `"]`, and the greedy first group pushes the opening quote to the last
`"` that is preceded by whitespace. -/
def tagPairOfLine (line : String) : Option (String × String) :=
  let cs := line.toList
  match cs.findIdx? (fun c => c = '[') with
  | none => none
  | some i =>
    let sub := cs.drop (i + 1)
    let closeIdxs := (List.range sub.length).filter
      (fun j => sub.getD j ' ' = '"' ∧ sub.getD (j + 1) ' ' = ']')
    match closeIdxs.getLast? with
    | none => none
    | some j =>
      let openIdxs := (List.range j).filter
        (fun k => sub.getD k ' ' = '"' ∧ 1 ≤ k ∧ (sub.getD (k - 1) ' ').isWhitespace)
      match openIdxs.getLast? with
      | none => none
      | some k =>
        some (String.mk (sub.take (k - 1)), String.mk ((sub.drop (k + 1)).take (j - k - 1)))

/-- `getTagPairs`: every line's tag-pair match, in order. -/
def getTagPairs (pgn : String) : List (String × String) :=
  (strSplitOnChar '\n' pgn).filterMap tagPairOfLine

/-- One token of the move-list tokenizer regex: a move-number indicator, a
SAN token, a brace comment, a discarded variation, or an outcome token. -/
inductive PGNTok where
  | num
  | san (s : String)
  | comment (s : String)
  | variation
  | outcome (s : String)
deriving DecidableEq, Repr

def isWordChar (c : Char) : Bool := c.isAlphanum || c = '_'

/-- `\d+\.` -/
def matchNumDot (cs : List Char) : Option (List Char) :=
  let digits := cs.takeWhile Char.isDigit
  if digits.length = 0 then none
  else match cs.drop digits.length with
    | '.' :: rest => some rest
    | _ => none

/-- `O-O(?:-O)?` (no annotation suffix in this alternative) or
`\w*[a-h][1-8]\w*(?:=[QRBN])?(?:\+|#)?`: since the file/rank pair consists
of word characters, the token's word part is the whole maximal word run as
long as it contains an adjacent file-rank pair. -/
def matchSANTok (cs : List Char) : Option (String × List Char) :=
  match cs with
  | 'O' :: '-' :: 'O' :: '-' :: 'O' :: rest => some ("O-O-O", rest)
  | 'O' :: '-' :: 'O' :: rest => some ("O-O", rest)
  | _ =>
    let run := cs.takeWhile isWordChar
    let hasPair := (List.range run.length).any (fun i =>
      isSANFile (run.getD i ' ') ∧ '1' ≤ run.getD (i + 1) ' ' ∧ run.getD (i + 1) ' ' ≤ '8')
    if run.length < 2 ∨ ¬hasPair then none
    else
      let rest := cs.drop run.length
      let (promo, rest) :=
        match rest with
        | '=' :: p :: rest2 =>
          if p = 'Q' ∨ p = 'R' ∨ p = 'B' ∨ p = 'N' then (['=', p], rest2) else ([], rest)
        | _ => ([], rest)
      let (chk, rest) :=
        match rest with
        | '+' :: rest2 => (['+'], rest2)
        | '#' :: rest2 => (['#'], rest2)
        | _ => ([], rest)
      some (String.mk (run ++ promo ++ chk), rest)

/-- `\{([^}]*)\}` -/
def matchCommentTok (cs : List Char) : Option (String × List Char) :=
  match cs with
  | '{' :: rest =>
    let body := rest.takeWhile (fun c => c ≠ '}')
    match rest.drop body.length with
    | '}' :: rest2 => some (String.mk body, rest2)
    | _ => none
  | _ => none

/-- `\([^)]*\)` -/
def matchVariationTok (cs : List Char) : Option (List Char) :=
  match cs with
  | '(' :: rest =>
    let body := rest.takeWhile (fun c => c ≠ ')')
    match rest.drop body.length with
    | ')' :: rest2 => some rest2
    | _ => none
  | _ => none

/-- `\*|0-1|1-0|1/2-1/2` -/
def matchOutcomeTok (cs : List Char) : Option (String × List Char) :=
  match cs with
  | '*' :: rest => some ("*", rest)
  | '0' :: '-' :: '1' :: rest => some ("0-1", rest)
  | '1' :: '-' :: '0' :: rest => some ("1-0", rest)
  | '1' :: '/' :: '2' :: '-' :: '1' :: '/' :: '2' :: rest => some ("1/2-1/2", rest)
  | _ => none

/-- The scan of `moveListTokenRe.FindAllStringSubmatch`: repeatedly take
the leftmost match, trying the alternatives in the regex's order. -/
def pgnTokensAux : Nat → List Char → List PGNTok
  | 0, _ => []
  | _, [] => []
  | fuel + 1, cs =>
    match matchNumDot cs with
    | some rest => PGNTok.num :: pgnTokensAux fuel rest
    | none =>
      match matchSANTok cs with
      | some (s, rest) => PGNTok.san s :: pgnTokensAux fuel rest
      | none =>
        match matchCommentTok cs with
        | some (s, rest) => PGNTok.comment s :: pgnTokensAux fuel rest
        | none =>
          match matchVariationTok cs with
          | some rest => PGNTok.variation :: pgnTokensAux fuel rest
          | none =>
            match matchOutcomeTok cs with
            | some (s, rest) => PGNTok.outcome s :: pgnTokensAux fuel rest
            | none => pgnTokensAux fuel (cs.drop 1)

def pgnTokens (s : String) : List PGNTok := pgnTokensAux s.length s.toList

structure MoveWithComment where
  MoveStr : String := ""
  Comments : List String := []
deriving DecidableEq, Repr

/-- The iteration of `moveListWithComments` over the token stream: moves
accumulate, a comment attaches to the last move (Go would panic on a
comment before the first move; we leave the list unchanged there), and the
first outcome token stops the scan. -/
def collectMoves : List PGNTok → List MoveWithComment → List MoveWithComment × Outcome
  | [], acc => (acc, "")
  | t :: rest, acc =>
    match t with
    | .outcome o => (acc, o)
    | .comment c =>
      let acc := match acc.getLast? with
        | some last => acc.dropLast ++ [{ last with Comments := last.Comments ++ [strTrim c] }]
        | none => acc
      collectMoves rest acc
    | .san s => collectMoves rest (acc ++ [{ MoveStr := s }])
    | .num => collectMoves rest acc
    | .variation => collectMoves rest acc

/-- `moveListWithComments`: tokenize the move text (tag-pair lines
stripped); the outcome is the first outcome token reached, `""` when the
scan runs out first. -/
def moveListWithComments (pgn : String) : List MoveWithComment × Outcome :=
  collectMoves (pgnTokens (stripTagPairs pgn)) []

/-- One move of `decodePGN`'s replay loop: decode the SAN text in the
current position and apply it; a failure of either aborts the loop. -/
def decodePGNReplayStep (acc : Except String Game) (move : MoveWithComment) :
    Except String Game :=
  match acc with
  | .error e => .error e
  | .ok g =>
    match g.pos.DecodeMove move.MoveStr with
    | .error e => .error ("chess: pgn decode error " ++ e ++ " on move")
    | .ok m =>
      match g.Move m with
      | (some e, _) => .error ("chess: pgn invalid move error " ++ e ++ " on move")
      | (none, g) => .ok g

/-- `decodePGN`: tag pairs, then a game seeded from a FEN tag or the start
position, automatic draws suppressed, each move replayed through
`DecodeMove`/`Game.Move`, and the outcome token written last. -/
def decodePGN (pgn : String) : Except String Game :=
  let tagPairs := getTagPairs pgn
  let mc := moveListWithComments pgn
  let seeded : Except String (Option Game) :=
    match tagPairs.find? (fun tp => strToLower tp.1 = "fen") with
    | some tp =>
      match NewGameFromFEN tp.2 with
      | .ok g => .ok (some g)
      | .error e => .error ("chess: pgn decode error " ++ e ++ " on tag " ++ tp.1)
    | none => .ok none
  match seeded with
  | .error e => .error e
  | .ok og =>
    let g := match og with
      | some g => g
      | none => NewGame
    let g := tagPairs.foldl (fun g tp => g.AddTagPair tp.1 tp.2) g
    let g := { g with ignoreAutomaticDraws := true }
    let replayed := mc.1.foldl decodePGNReplayStep (.ok g)
    match replayed with
    | .error e => .error e
    | .ok g => .ok { g with outcome := mc.2 }

/-! ## The sequential PGN scanner (src/unnamed/part_001) -/

/-- A scanner error: clean end of input, or a PGN decode error.  (The
underlying reader is modelled as a list of lines that terminates cleanly,
which is the claim's "clean termination" case; a non-EOF I/O error would
come out of `bufio` instead of the `eof` constructor.) -/
inductive ScanErr where
  | eof
  | decodeErr (msg : String)
deriving DecidableEq, Repr

inductive ScanState where
  | notInPGN
  | inTagPairs
  | inMoves
deriving DecidableEq, Repr

/-- The scanner: the unread lines of the reader, the game of the last
successful Scan, and the error of the last Scan. -/
structure Scanner where
  remaining : List String
  game : Option Game := none
  err : Option ScanErr := none
deriving DecidableEq, Repr

/-- The line loop inside `Scanner.Scan`: buffer lines by the three-state
machine; a blank line inside the move section, or the end of input,
finalizes the buffer through `decodePGN` (`setGame`).  Returns Scan's
boolean and the new scanner state. -/
def scanLoop (game : Option Game) : List String → String → ScanState → Bool × Scanner
  | [], sb, _ =>
    -- the underlying scanner is exhausted: err becomes EOF, then setGame
    match decodePGN sb with
    | .ok g => (true, { remaining := [], game := some g, err := some .eof })
    | .error e => (false, { remaining := [], game := game, err := some (.decodeErr e) })
  | line :: rest, sb, state =>
    let line := strTrim line
    let isTagPair := strStartsWith line "["
    let isMoveSeq := strStartsWith line "1. "
    match state with
    | .notInPGN =>
      if ¬isTagPair then scanLoop game rest sb .notInPGN
      else scanLoop game rest (sb ++ line ++ "\n") .inTagPairs
    | .inTagPairs =>
      let state := if isMoveSeq then ScanState.inMoves else ScanState.inTagPairs
      scanLoop game rest (sb ++ line ++ "\n") state
    | .inMoves =>
      if line = "" then
        match decodePGN sb with
        | .ok g => (true, { remaining := rest, game := some g, err := none })
        | .error e => (false, { remaining := rest, game := game, err := some (.decodeErr e) })
      else scanLoop game rest (sb ++ line ++ "\n") .inMoves

/-- `Scanner.Scan`: false immediately when the last Scan already returned
EOF; otherwise clear the error and run the line loop. -/
def Scanner.Scan (s : Scanner) : Bool × Scanner :=
  if s.err = some .eof then (false, s)
  else scanLoop s.game s.remaining "" .notInPGN

/-- `Scanner.Next`: the game from the most recent Scan. -/
def Scanner.Next (s : Scanner) : Option Game := s.game

/-- `Scanner.Err`: the error from the most recent Scan. -/
def Scanner.Err (s : Scanner) : Option ScanErr := s.err

/-! ## The bitflip package's own attack helpers (bitflip/chessdata.go) -/

namespace bitflip

/-- bitflip's square helper: `sqInt(rank, file) = file<<3 | rank` — note the
file sits in the high bits, transposed from the chess package's convention. -/
def sqInt (rank file : Nat) : Nat := (file <<< 3) ||| rank

/-- bitflip/chessdata.go `hvAttack`: the rank mask is indexed by `sq & 0x7`
and the file mask by `sq >> 3` (the package's `sqInt` convention). -/
def hvAttack (occupied : Nat) (sq : Nat) : Nat :=
  linearAttack occupied (bbForSquare sq) (bbRanks.getD (sq &&& 0x7) 0) |||
  linearAttack occupied (bbForSquare sq) (bbFiles.getD (sq >>> 3) 0)

end bitflip

/-- The specification's reading of `bitflip.hvAttack` (claim C9): the rank
mask indexed by `sq >> 3` and the file mask by `sq & 7`, the main chess
package's square convention. -/
def hvAttackSpecConvention (occupied : Nat) (sq : Nat) : Nat :=
  linearAttack occupied (bbForSquare sq) (bbRanks.getD (sq >>> 3) 0) |||
  linearAttack occupied (bbForSquare sq) (bbFiles.getD (sq &&& 0x7) 0)

/-! ## Concrete fixtures for witnesses -/

/-- The board of FEN `r3k2r/8/8/8/8/8/8/R3K2R`: both kings on their home
squares with both rooks each. -/
def castleBoardW : Board :=
  { array := [16, 0, 129, 0, 0, 0, 0, 0, 0, 0, 0, 0, 0, 0, 0, 0,
              1152921504606846976, 0, 9295429630892703744, 0, 0, 0],
    whiteKingSq := E1, blackKingSq := E8 }

/-- FEN `r3k2r/8/8/8/8/8/8/R3K2R w KQkq - 0 1`. -/
def castlePosW : Position :=
  { board := castleBoardW, turn := White, castleRights := "KQkq",
    enPassantSquare := NoSquare, halfMoveClock := 0, moveCount := 1,
    inCheck := false }

/-- The board of FEN `7k/8/8/8/8/8/8/K7`: a bare white king on a1 and a
bare black king on h8. -/
def kkBoard : Board :=
  { array := [1, 0, 0, 0, 0, 0, 0, 0, 0, 0, 0, 0, 0, 0, 0, 0,
              9223372036854775808, 0, 0, 0, 0, 0],
    whiteKingSq := A1, blackKingSq := H8 }

/-- FEN `7k/8/8/8/8/8/8/K7 w - - 0 1`. -/
def kkPos : Position :=
  { board := kkBoard, turn := White, castleRights := "-",
    enPassantSquare := NoSquare, halfMoveClock := 0, moveCount := 1,
    inCheck := false }

/-- A one-position game over `kkPos`. -/
def kkGame : Game := { pos := kkPos, positions := [kkPos] }

/-- The move `parseSAN` produces for the kingside literal. -/
def kingsideParsed : Move :=
  { piece := WhiteKing, s1 := E1, s2 := G1, tags := { queenSideCastle := true } }

/-- The decoded game of a PGN string, or a fresh game when decoding fails
(used only to state closed facts about successful decodes). -/
def decodedOrDefault (s : String) : Game :=
  match decodePGN s with
  | .ok g => g
  | .error _ => NewGame

/-- The first outcome token of a token stream. -/
def firstOutcomeTok (ts : List PGNTok) : Option String :=
  ts.findSome? (fun t => match t with | .outcome s => some s | _ => none)

/-- The last (final) outcome token of a token stream. -/
def lastOutcomeTok (ts : List PGNTok) : Option String :=
  firstOutcomeTok ts.reverse

/-! ## C5 — samePosition compares board, turn, castle rights and en-passant
square, and ignores the clocks -/

/-- C5: `samePosition(p1, p2)` holds iff the boards' per-piece bitboards,
the sides to move, the castle-rights strings and the en-passant squares all
agree; replacing either position's half-move clock or full-move counter by
anything never changes the result. -/
theorem samePosition_spec :
    ∀ p1 p2 : Position,
      (p1.samePosition p2 = true ↔
        (p1.board.array = p2.board.array ∧ p1.turn = p2.turn ∧
         p1.castleRights = p2.castleRights ∧
         p1.enPassantSquare = p2.enPassantSquare)) ∧
      (∀ h1 h2 mc1 mc2 : Nat,
        Position.samePosition { p1 with halfMoveClock := h1, moveCount := mc1 }
            { p2 with halfMoveClock := h2, moveCount := mc2 } =
          p1.samePosition p2) := by
  intro p1 p2
  constructor
  · simp [Position.samePosition, Board.Eq, Bool.and_eq_true, and_assoc]
  · intro h1 h2 mc1 mc2
    simp [Position.samePosition, Board.Eq]

/-- Decidable equality for `Except` results (ok/error with decidable
component equality). -/
instance {ε α : Type} [DecidableEq ε] [DecidableEq α] : DecidableEq (Except ε α) := fun x y =>
  match x, y with
  | .ok a, .ok b => decidable_of_iff (a = b) (by simp)
  | .ok _, .error _ => isFalse (by simp)
  | .error _, .ok _ => isFalse (by simp)
  | .error e, .error f => decidable_of_iff (e = f) (by simp)

/-! ## C9 — bitflip.hvAttack's rank/file mask indexing -/

set_option maxRecDepth 20000 in
/-- C9 counterexample: with only the attacker on square 1 occupied,
`bitflip.hvAttack` differs from the claim's formula (rank mask indexed by
`sq >> 3`, file mask by `sq & 7`): the code indexes the tables the other
way around. -/
theorem bitflip_hvAttack_counterexample :
    bitflip.hvAttack 2 1 ≠ hvAttackSpecConvention 2 1 := by decide

/-- C9 amended: `bitflip.hvAttack(occupied, sq)` is the union of the
sliding-line attacks along `bbRanks[sq & 7]` and `bbFiles[sq >> 3]` — under
the bitflip package's own square convention `sqInt(rank, file) =
file<<3 | rank` these are precisely the rank and the file through `sq`,
transposed from the main package's `file = sq & 7` convention. -/
theorem bitflip_hvAttack_amended (occ rank file : Nat)
    (hr : rank < 8) (hf : file < 8) :
    bitflip.hvAttack occ (bitflip.sqInt rank file) =
      linearAttack occ (bbForSquare (bitflip.sqInt rank file)) (bbRanks.getD rank 0) |||
      linearAttack occ (bbForSquare (bitflip.sqInt rank file)) (bbFiles.getD file 0) := by
  have h1 : bitflip.sqInt rank file &&& 0x7 = rank := by
    unfold bitflip.sqInt
    interval_cases rank <;> interval_cases file <;> decide
  have h2 : bitflip.sqInt rank file >>> 3 = file := by
    unfold bitflip.sqInt
    interval_cases rank <;> interval_cases file <;> decide
  rw [bitflip.hvAttack, h1, h2]

/-- C9 witness: the amended equation evaluated at `occupied = 2` and the
square `sqInt(1, 0)` (= square 1). -/
theorem bitflip_hvAttack_amended_witness :
    bitflip.hvAttack 2 (bitflip.sqInt 1 0) =
      linearAttack 2 (bbForSquare (bitflip.sqInt 1 0)) (bbRanks.getD 1 0) |||
      linearAttack 2 (bbForSquare (bitflip.sqInt 1 0)) (bbFiles.getD 0 0) :=
  bitflip_hvAttack_amended 2 1 0 (by decide) (by decide)

/-! ## C3 — parseSAN tags the kingside castling literal QueenSideCastle -/

set_option maxRecDepth 100000 in
/-- C3 (code bug): `parseSAN "O-O"` succeeds and produces the king move
E1→G1, but carries the `QueenSideCastle` tag and not the `KingSideCastle`
tag: the kingside branch of `parseSAN` reuses the queenside tag, which the
spec flags as a bug (the tag should match the castling side). -/
theorem parseSAN_kingside_literal_bug :
    parseSAN "O-O" castlePosW = Except.ok kingsideParsed ∧
    kingsideParsed.tags.queenSideCastle = true ∧
    kingsideParsed.tags.kingSideCastle = false ∧
    kingsideParsed.s1 = E1 ∧ kingsideParsed.s2 = G1 := by decide

/-! ## C6 — Draw claims validate their preconditions and leave the game
unchanged on failure -/

/-- C6: `Draw(ThreefoldRepetition)` errors iff the current position repeats
fewer than 3 times in the position history; `Draw(FiftyMoveRule)` errors
iff the half-move clock is below 100; an erroring claim leaves the game
unchanged, and a successful claim sets outcome Draw with the claimed
method. -/
theorem draw_claim_spec :
    ∀ g : Game,
      ((g.Draw ThreefoldRepetition).1.isSome = true ↔ g.numOfRepetitions < 3) ∧
      ((g.Draw FiftyMoveRule).1.isSome = true ↔ g.pos.halfMoveClock < 100) ∧
      ((g.Draw ThreefoldRepetition).1.isSome = true →
        (g.Draw ThreefoldRepetition).2 = g) ∧
      ((g.Draw FiftyMoveRule).1.isSome = true → (g.Draw FiftyMoveRule).2 = g) ∧
      ((g.Draw ThreefoldRepetition).1.isSome = false →
        (g.Draw ThreefoldRepetition).2 =
          { g with outcome := Chess.Draw, method := ThreefoldRepetition }) ∧
      ((g.Draw FiftyMoveRule).1.isSome = false →
        (g.Draw FiftyMoveRule).2 =
          { g with outcome := Chess.Draw, method := FiftyMoveRule }) := by
  intro g
  unfold Game.Draw
  by_cases h3 : g.numOfRepetitions < 3 <;>
    by_cases h100 : g.pos.halfMoveClock < 100 <;>
      simp [ThreefoldRepetition, FiftyMoveRule, h3, h100]

/-! ## C4 — the half-move clock after Update -/

/-- C4: for a move of the legal-move list, the successor's half-move clock
is 0 when the moved piece (the move's piece, falling back to the board's
piece at the origin) is a pawn, or the move captures, or the successor's
castle-rights string differs from the position's; otherwise it is the
half-move clock plus one. -/
theorem update_halfMoveClock_spec (pos : Position) (m : Move)
    (hm : m ∈ pos.ValidMoves) :
    (pos.Update m).halfMoveClock =
      if (if m.piece = NoPiece then pos.board.Piece m.s1 else m.piece).Type = Pawn
          ∨ m.tags.capture = true
          ∨ (pos.Update m).castleRights ≠ pos.castleRights
      then 0
      else pos.halfMoveClock + 1 := by
  show (if _ ∨ _ ∨ pos.CastleRights ≠ pos.updateCastleRights m then (0 : Nat)
        else pos.halfMoveClock + 1) = _
  have hflip : (pos.CastleRights ≠ pos.updateCastleRights m) ↔
      (pos.Update m).castleRights ≠ pos.castleRights := by
    show _ ↔ pos.updateCastleRights m ≠ pos.castleRights
    exact ne_comm
  by_cases hc : (if m.piece = NoPiece then pos.board.Piece m.s1 else m.piece).Type = Pawn
      ∨ m.tags.capture = true
      ∨ (pos.Update m).castleRights ≠ pos.castleRights
  · rw [if_pos hc, if_pos]
    rw [hflip]
    exact hc
  · rw [if_neg hc, if_neg]
    rw [hflip]
    exact hc

/-- C4 witness: the quiet king move a1→b1 in the bare-kings position is a
legal move; it is no pawn move, no capture, changes no castle rights, and
the clock increments. -/
theorem update_halfMoveClock_witness :
    ({ piece := WhiteKing, s1 := A1, s2 := B1 } : Move) ∈ kkPos.ValidMoves ∧
    (kkPos.Update { piece := WhiteKing, s1 := A1, s2 := B1 }).halfMoveClock =
      (if (if ({ piece := WhiteKing, s1 := A1, s2 := B1 } : Move).piece = NoPiece then
              kkPos.board.Piece ({ piece := WhiteKing, s1 := A1, s2 := B1 } : Move).s1
            else ({ piece := WhiteKing, s1 := A1, s2 := B1 } : Move).piece).Type = Pawn
          ∨ ({ piece := WhiteKing, s1 := A1, s2 := B1 } : Move).tags.capture = true
          ∨ (kkPos.Update { piece := WhiteKing, s1 := A1, s2 := B1 }).castleRights ≠ kkPos.castleRights
        then 0
        else kkPos.halfMoveClock + 1) :=
  ⟨by decide, update_halfMoveClock_spec kkPos { piece := WhiteKing, s1 := A1, s2 := B1 } (by decide)⟩

/-! ## C2 — Status is Checkmate/Stalemate/NoMethod by emptiness of the
legal-move list and the inCheck flag -/

/-- A first-move-only generation finds a move exactly when the full
generation does: its standard part is the one-element prefix of the full
standard list, and the castle moves are appended either way. -/
theorem calcMoves_first_len_zero_iff (pos : Position) :
    (CalcMoves pos true).length = 0 ↔ CalcMoves pos false = [] := by
  cases hsm : standardMovesAll pos <;> simp [CalcMoves, standardMoves, hsm]

/-- C2: on a position whose cached `inCheck` flag satisfies the Position
invariant, `Status()` is Checkmate iff there is no legal move and the
mover is in check, Stalemate iff there is no legal move and the mover is
not in check, and NoMethod otherwise. -/
theorem status_spec (pos : Position)
    (hInv : pos.inCheck = isInCheck pos.board pos.turn) :
    (pos.Status = Checkmate ↔ (pos.ValidMoves = [] ∧ pos.inCheck = true)) ∧
    (pos.Status = Stalemate ↔ (pos.ValidMoves = [] ∧ pos.inCheck = false)) ∧
    (pos.Status = NoMethod ↔ pos.ValidMoves ≠ []) := by
  unfold Position.Status engineStatus Position.ValidMoves
  cases hvm : pos.validMoves with
  | none =>
    by_cases hmv : CalcMoves pos false = []
    · have h0 : (CalcMoves pos true).length = 0 := (calcMoves_first_len_zero_iff pos).2 hmv
      cases hic : pos.inCheck <;>
        simp [h0, hmv, hic, Stalemate, Checkmate, NoMethod]
    · have h0 : (CalcMoves pos true).length ≠ 0 := by
        intro h
        exact hmv ((calcMoves_first_len_zero_iff pos).1 h)
      cases hic : pos.inCheck <;>
        simp [Nat.pos_of_ne_zero h0, hmv, hic, Stalemate, Checkmate, NoMethod]
  | some l =>
    by_cases hl : l = []
    · cases hic : pos.inCheck <;>
        simp [hl, hic, Stalemate, Checkmate, NoMethod]
    · have h0 : 0 < l.length := by
        cases l with
        | nil => exact absurd rfl hl
        | cons a t => simp
      cases hic : pos.inCheck <;>
        simp [hl, h0, hic, Stalemate, Checkmate, NoMethod]

/-- C2 witness: the bare-kings position satisfies the invariant, has legal
moves, and its status is NoMethod. -/
theorem status_spec_witness :
    kkPos.inCheck = isInCheck kkPos.board kkPos.turn ∧ kkPos.Status = NoMethod :=
  ⟨by decide, ((status_spec kkPos (by decide)).2.2).mpr (by decide)⟩

/-! ## C10 — an invalid move errors and leaves the game unchanged -/

/-- C10: when no valid move matches `m` under move equality (origin,
destination, promotion), `Game.Move` returns an error and the game — its
move list, position list, current position, outcome and method included —
is exactly the one before the call. -/
theorem move_invalid_unchanged (g : Game) (m : Move)
    (h : ∀ v ∈ g.ValidMoves, v.Eq m = false) :
    (g.Move m).1.isSome = true ∧ (g.Move m).2 = g := by
  have hfind : moveSliceFind g.ValidMoves m = none := by
    unfold moveSliceFind
    refine List.find?_eq_none.2 ?_
    intro v hv
    simp [h v hv]
  unfold Game.Move
  rw [hfind]
  exact ⟨rfl, rfl⟩

/-- The illegal "move" a1→a1. -/
def kkBadMove : Move := { piece := WhiteKing, s1 := A1, s2 := A1 }

/-- C10 witness: a1→a1 matches none of the bare-kings game's valid moves,
so `Move` errors and the game value is unchanged. -/
theorem move_invalid_unchanged_witness :
    (kkGame.Move kkBadMove).1.isSome = true ∧ (kkGame.Move kkBadMove).2 = kkGame :=
  move_invalid_unchanged kkGame kkBadMove (by decide)

/-! ## C1 — castle moves are generated only under the castling guards -/

/-- `addTags` only ever adds the Capture, EnPassant, inCheck and Check
tags: the castle tags (and the move's squares and piece) pass through. -/
theorem addTags_preserves (m : Move) (pos : Position) :
    (addTags m pos).tags.kingSideCastle = m.tags.kingSideCastle ∧
    (addTags m pos).tags.queenSideCastle = m.tags.queenSideCastle := by
  refine ⟨?_, ?_⟩ <;> unfold addTags
  · simp only [apply_ite (fun mv : Move => mv.tags.kingSideCastle)]
    simp
  · simp only [apply_ite (fun mv : Move => mv.tags.queenSideCastle)]
    simp

theorem mem_keepLegal {m m' : Move} (h : m ∈ keepLegal m') : m = m' := by
  unfold keepLegal at h
  split at h
  · exact absurd h (List.not_mem_nil m)
  · simpa using h

/-- No move of the standard (non-castle) generation carries a castle tag:
every one is `addTags` applied to a move built with the empty tag set. -/
theorem standardMovesAll_no_castle {pos : Position} {m : Move}
    (h : m ∈ standardMovesAll pos) :
    m.tags.kingSideCastle = false ∧ m.tags.queenSideCastle = false := by
  unfold standardMovesAll at h
  rw [List.mem_flatMap] at h
  obtain ⟨typ, -, h⟩ := h
  repeat'
    first
      | exact absurd h (List.not_mem_nil m)
      | (rw [List.mem_flatMap] at h; obtain ⟨_, -, h⟩ := h)
      | split at h
      | dsimp only at h
  all_goals
    have hme := mem_keepLegal h
  all_goals
    subst hme
  all_goals
    rw [(addTags_preserves _ _).1, (addTags_preserves _ _).2]
  all_goals
    exact ⟨rfl, rfl⟩

/-- C1: a move of `CalcMoves` tagged as a castle implies, for its wing:
the right is still held in the position's `CastleRights`; the mover is not
in check (`inCheck` false, hence by the Position invariant the king's
square — the castle's start square — is not attacked); and for the mover's
color the squares strictly between king and rook are unoccupied and the
square the king passes through and its destination are not attacked. -/
theorem castle_generation_spec (pos : Position) (first : Bool) (m : Move)
    (hInv : pos.inCheck = isInCheck pos.board pos.turn)
    (hm : m ∈ CalcMoves pos first) :
    (m.tags.kingSideCastle = true →
      pos.castleRights.CanCastle pos.Turn KingSide = true ∧
      pos.inCheck = false ∧ isInCheck pos.board pos.turn = false ∧
      ((pos.turn = White ∧
        pos.board.occupied &&& (bbForSquare F1 ||| bbForSquare G1) = 0 ∧
        squaresAreAttacked pos.board pos.turn [F1, G1] = false) ∨
       (pos.turn = Black ∧
        pos.board.occupied &&& (bbForSquare F8 ||| bbForSquare G8) = 0 ∧
        squaresAreAttacked pos.board pos.turn [F8, G8] = false))) ∧
    (m.tags.queenSideCastle = true →
      pos.castleRights.CanCastle pos.Turn QueenSide = true ∧
      pos.inCheck = false ∧ isInCheck pos.board pos.turn = false ∧
      ((pos.turn = White ∧
        pos.board.occupied &&& (bbForSquare B1 ||| bbForSquare C1 ||| bbForSquare D1) = 0 ∧
        squaresAreAttacked pos.board pos.turn [C1, D1] = false) ∨
       (pos.turn = Black ∧
        pos.board.occupied &&& (bbForSquare B8 ||| bbForSquare C8 ||| bbForSquare D8) = 0 ∧
        squaresAreAttacked pos.board pos.turn [C8, D8] = false))) := by
  rcases List.mem_append.1 hm with hstd | hcas
  · -- standard moves never carry a castle tag
    have hstd' : m ∈ standardMovesAll pos := by
      unfold standardMoves at hstd
      split at hstd
      · exact List.take_subset _ _ hstd
      · exact hstd
    have hfree := standardMovesAll_no_castle hstd'
    constructor
    · intro htag
      rw [hfree.1] at htag
      exact absurd htag (by simp)
    · intro htag
      rw [hfree.2] at htag
      exact absurd htag (by simp)
  · simp only [castleMoves, List.mem_append] at hcas
    rcases hcas with ((h1 | h2) | h3) | h4
    · -- white kingside
      split at h1
      case isTrue hcond =>
        obtain ⟨hw, hks, hocc, hatt, hchk⟩ := hcond
        have hmeq := List.mem_singleton.1 h1
        subst hmeq
        have hchk' : pos.inCheck = false := by
          simpa using hchk
        refine ⟨fun _ => ⟨hks, hchk', hInv ▸ hchk', Or.inl ⟨hw, hocc, by simpa using hatt⟩⟩,
                fun htag => ?_⟩
        rw [(addTags_preserves _ _).2] at htag
        exact absurd htag (by simp)
      case isFalse => exact absurd h1 (List.not_mem_nil m)
    · -- white queenside
      split at h2
      case isTrue hcond =>
        obtain ⟨hw, hqs, hocc, hatt, hchk⟩ := hcond
        have hmeq := List.mem_singleton.1 h2
        subst hmeq
        have hchk' : pos.inCheck = false := by
          simpa using hchk
        refine ⟨fun htag => ?_,
                fun _ => ⟨hqs, hchk', hInv ▸ hchk', Or.inl ⟨hw, hocc, by simpa using hatt⟩⟩⟩
        rw [(addTags_preserves _ _).1] at htag
        exact absurd htag (by simp)
      case isFalse => exact absurd h2 (List.not_mem_nil m)
    · -- black kingside
      split at h3
      case isTrue hcond =>
        obtain ⟨hb, hks, hocc, hatt, hchk⟩ := hcond
        have hmeq := List.mem_singleton.1 h3
        subst hmeq
        have hchk' : pos.inCheck = false := by
          simpa using hchk
        refine ⟨fun _ => ⟨hks, hchk', hInv ▸ hchk', Or.inr ⟨hb, hocc, by simpa using hatt⟩⟩,
                fun htag => ?_⟩
        rw [(addTags_preserves _ _).2] at htag
        exact absurd htag (by simp)
      case isFalse => exact absurd h3 (List.not_mem_nil m)
    · -- black queenside
      split at h4
      case isTrue hcond =>
        obtain ⟨hb, hqs, hocc, hatt, hchk⟩ := hcond
        have hmeq := List.mem_singleton.1 h4
        subst hmeq
        have hchk' : pos.inCheck = false := by
          simpa using hchk
        refine ⟨fun htag => ?_,
                fun _ => ⟨hqs, hchk', hInv ▸ hchk', Or.inr ⟨hb, hocc, by simpa using hatt⟩⟩⟩
        rw [(addTags_preserves _ _).1] at htag
        exact absurd htag (by simp)
      case isFalse => exact absurd h4 (List.not_mem_nil m)

/-- White's kingside castle move as the generator emits it. -/
def wksCastleMove : Move :=
  { piece := WhiteKing, s1 := E1, s2 := G1, tags := { kingSideCastle := true } }

/-- C1 witness: in the both-sides-castle position the generator emits the
white kingside castle, and the guards of the claim hold there. -/
theorem castle_generation_spec_witness :
    castlePosW.inCheck = isInCheck castlePosW.board castlePosW.turn ∧
    wksCastleMove ∈ CalcMoves castlePosW false ∧
    (castlePosW.castleRights.CanCastle castlePosW.Turn KingSide = true ∧
     castlePosW.inCheck = false ∧
     isInCheck castlePosW.board castlePosW.turn = false ∧
     ((castlePosW.turn = White ∧
       castlePosW.board.occupied &&& (bbForSquare F1 ||| bbForSquare G1) = 0 ∧
       squaresAreAttacked castlePosW.board castlePosW.turn [F1, G1] = false) ∨
      (castlePosW.turn = Black ∧
       castlePosW.board.occupied &&& (bbForSquare F8 ||| bbForSquare G8) = 0 ∧
       squaresAreAttacked castlePosW.board castlePosW.turn [F8, G8] = false))) :=
  ⟨by decide, by decide,
   (castle_generation_spec castlePosW false wksCastleMove (by decide) (by decide)).1 (by decide)⟩

/-! ## C7 — the sequential scanner's iteration contract -/

/-- Any true return of the Scan line loop exposes a game that `decodePGN`
successfully produced from some buffered text. -/
theorem scanLoop_true_game (game : Option Game) (ls : List String) :
    ∀ sb st b s', scanLoop game ls sb st = (b, s') → b = true →
      ∃ g, s'.game = some g ∧ ∃ txt, decodePGN txt = Except.ok g := by
  induction ls with
  | nil =>
    intro sb st b s' h hb
    unfold scanLoop at h
    split at h
    · rename_i g heq
      injection h with h1 h2
      subst h2
      exact ⟨g, rfl, sb, heq⟩
    · injection h with h1 h2
      rw [← h1] at hb
      simp at hb
  | cons line rest ih =>
    intro sb st b s' h hb
    unfold scanLoop at h
    cases st with
    | notInPGN =>
      dsimp only at h
      split at h
      · exact ih _ _ _ _ h hb
      · exact ih _ _ _ _ h hb
    | inTagPairs =>
      dsimp only at h
      exact ih _ _ _ _ h hb
    | inMoves =>
      dsimp only at h
      split at h
      · split at h
        · rename_i g heq
          injection h with h1 h2
          subst h2
          exact ⟨g, rfl, sb, heq⟩
        · injection h with h1 h2
          rw [← h1] at hb
          simp at hb
      · exact ih _ _ _ _ h hb

/-- C7: once the scanner's reader was exhausted on clean termination (its
state carries the EOF error, every complete buffered game already
returned), the next `Scan()` returns false with the state — and hence
`Err()` — unchanged, still EOF; and every `Scan()` call that returns true
has via `Next()` a game that `decodePGN` parsed successfully. -/
theorem scanner_scan_contract (s : Scanner) :
    (s.err = some ScanErr.eof → s.Scan = (false, s) ∧ s.Err = some ScanErr.eof) ∧
    (∀ b s', s.Scan = (b, s') → b = true →
      ∃ g, s'.Next = some g ∧ ∃ txt, decodePGN txt = Except.ok g) := by
  constructor
  · intro he
    unfold Scanner.Scan
    rw [if_pos he]
    exact ⟨rfl, he⟩
  · intro b s' h hb
    unfold Scanner.Scan at h
    split at h
    · injection h with h1 h2
      rw [← h1] at hb
      simp at hb
    · exact scanLoop_true_game _ _ _ _ _ _ h hb

/-! ## C8 — the outcome token written into a decoded game -/

/-- The tokenizer-driven scan stops at, and returns, the FIRST outcome
token of the stream. -/
theorem collectMoves_outcome (ts : List PGNTok) :
    ∀ acc, (collectMoves ts acc).2 = (firstOutcomeTok ts).getD "" := by
  induction ts with
  | nil => intro acc; rfl
  | cons t rest ih =>
    intro acc
    cases t <;> simp [collectMoves, firstOutcomeTok, List.findSome?_cons] <;>
      simpa [firstOutcomeTok] using ih _

/-- `updatePosition` never touches the automatic-draw suppression flag. -/
theorem updatePosition_ignore (g : Game) :
    g.updatePosition.ignoreAutomaticDraws = g.ignoreAutomaticDraws := by
  unfold Game.updatePosition
  simp only [apply_ite (fun g : Game => g.ignoreAutomaticDraws)]
  simp

/-- `Game.Move` never touches the automatic-draw suppression flag. -/
theorem gameMove_ignore (g : Game) (m : Move) :
    ((g.Move m).2).ignoreAutomaticDraws = g.ignoreAutomaticDraws := by
  unfold Game.Move
  split
  · rfl
  · simp [updatePosition_ignore]

theorem replayFold_error (moves : List MoveWithComment) (e : String) :
    moves.foldl decodePGNReplayStep (.error e) = .error e := by
  induction moves with
  | nil => rfl
  | cons mv rest ih => simpa [decodePGNReplayStep] using ih

/-- A successful replay preserves the automatic-draw suppression flag of
the game it started from. -/
theorem replayFold_ignore (moves : List MoveWithComment) :
    ∀ g g', moves.foldl decodePGNReplayStep (.ok g) = .ok g' →
      g'.ignoreAutomaticDraws = g.ignoreAutomaticDraws := by
  induction moves with
  | nil =>
    intro g g' h
    injection h with h
    rw [← h]
  | cons mv rest ih =>
    intro g g' h
    rw [List.foldl_cons] at h
    rcases hdm : g.pos.DecodeMove mv.MoveStr with e | m
    · rw [show decodePGNReplayStep (.ok g) mv =
            .error ("chess: pgn decode error " ++ e ++ " on move") from by
          simp [decodePGNReplayStep, hdm]] at h
      rw [replayFold_error] at h
      exact Except.noConfusion h
    · rcases hmv : g.Move m with ⟨erro, g1⟩
      cases erro with
      | some e =>
        rw [show decodePGNReplayStep (.ok g) mv =
              .error ("chess: pgn invalid move error " ++ e ++ " on move") from by
            simp [decodePGNReplayStep, hdm, hmv]] at h
        rw [replayFold_error] at h
        exact Except.noConfusion h
      | none =>
        rw [show decodePGNReplayStep (.ok g) mv = .ok g1 from by
            simp [decodePGNReplayStep, hdm, hmv]] at h
        have hig : g1.ignoreAutomaticDraws = g.ignoreAutomaticDraws := by
          have hgm := gameMove_ignore g m
          rw [hmv] at hgm
          exact hgm
        rw [ih g1 g' h, hig]

/-- C8 amended: a successfully decoded PGN game carries as its Outcome the
FIRST outcome token of the move text (the tokenizer stops there),
overriding any outcome computed while replaying the moves, and the decode
suppresses automatic draws during the replay. -/
theorem pgn_outcome_first_token (pgn : String) (g : Game) (o : String)
    (hdec : decodePGN pgn = Except.ok g)
    (hfirst : firstOutcomeTok (pgnTokens (stripTagPairs pgn)) = some o) :
    g.outcome = o ∧ g.ignoreAutomaticDraws = true := by
  unfold decodePGN at hdec
  dsimp only at hdec
  split at hdec
  · exact Except.noConfusion hdec
  · rename_i og hseed
    split at hdec
    · exact Except.noConfusion hdec
    · rename_i g2 hrep
      injection hdec with hdec
      subst hdec
      constructor
      · show (moveListWithComments pgn).2 = o
        unfold moveListWithComments
        rw [collectMoves_outcome, hfirst]
        rfl
      · show g2.ignoreAutomaticDraws = true
        exact replayFold_ignore _ _ _ hrep

/-- C8 counterexample: on a move text holding the two outcome tokens
`1-0 0-1`, the decode succeeds with Outcome `1-0` — the first token — while
the final outcome token is `0-1`; the claim's "final token" reading fails. -/
theorem pgn_outcome_counterexample :
    (decodePGN "1-0 0-1").toOption.map Game.outcome = some "1-0" ∧
    lastOutcomeTok (pgnTokens (stripTagPairs "1-0 0-1")) = some "0-1" ∧
    ("1-0" : String) ≠ "0-1" := by decide

/-- C8 witness: the amended claim evaluated on the game text `1. 1-0`. -/
theorem pgn_outcome_first_token_witness :
    (decodedOrDefault "1. 1-0").outcome = "1-0" ∧
    (decodedOrDefault "1. 1-0").ignoreAutomaticDraws = true :=
  pgn_outcome_first_token "1. 1-0" (decodedOrDefault "1. 1-0") "1-0"
    (by decide) (by decide)

end Chess
